import Mathlib

/-!
Verification development for the btc-trading-bot range-prediction engine
(`pages/api/analyze.js`, the full regime/structure/momentum variant).

The engine works on IEEE-754 doubles.  We embed JavaScript numbers as
`JsNum`: a real number, `+Infinity`, `-Infinity`, or `NaN`, with the
arithmetic, comparison, `Math.min` / `Math.max`, `Math.sqrt` and `Math.log`
semantics of JavaScript on those values (finite arithmetic is modelled
exactly over `ℝ`; negative zero is collapsed onto zero, which is faithful
for every expression this code builds).  Every numeric function of the
source is translated on top of this model; `parseFloat(x.toFixed(k))`
becomes rounding to `k` decimal places.
-/

noncomputable section

namespace BtcBot

/-- A JavaScript number: a finite real, an infinity, or NaN. -/
inductive JsNum where
  | num (x : ℝ)
  | posInf
  | negInf
  | nan
deriving Inhabited

namespace JsNum

/-- JS addition. -/
def jsAdd : JsNum → JsNum → JsNum
  | nan, _ => nan
  | _, nan => nan
  | num a, num b => num (a + b)
  | num _, posInf => posInf
  | num _, negInf => negInf
  | posInf, num _ => posInf
  | negInf, num _ => negInf
  | posInf, posInf => posInf
  | negInf, negInf => negInf
  | posInf, negInf => nan
  | negInf, posInf => nan

/-- JS negation. -/
def jsNeg : JsNum → JsNum
  | nan => nan
  | num a => num (-a)
  | posInf => negInf
  | negInf => posInf

/-- JS subtraction. -/
def jsSub (a b : JsNum) : JsNum := jsAdd a (jsNeg b)

/-- JS multiplication. -/
def jsMul : JsNum → JsNum → JsNum
  | nan, _ => nan
  | _, nan => nan
  | num a, num b => num (a * b)
  | num a, posInf => if 0 < a then posInf else if a < 0 then negInf else nan
  | num a, negInf => if 0 < a then negInf else if a < 0 then posInf else nan
  | posInf, num b => if 0 < b then posInf else if b < 0 then negInf else nan
  | negInf, num b => if 0 < b then negInf else if b < 0 then posInf else nan
  | posInf, posInf => posInf
  | negInf, negInf => posInf
  | posInf, negInf => negInf
  | negInf, posInf => negInf

/-- JS division (denominator zero stands for IEEE `+0`, the only zero the
engine ever divides by). -/
def jsDiv : JsNum → JsNum → JsNum
  | nan, _ => nan
  | _, nan => nan
  | num a, num b =>
      if b = 0 then (if 0 < a then posInf else if a < 0 then negInf else nan)
      else num (a / b)
  | num _, posInf => num 0
  | num _, negInf => num 0
  | posInf, num b => if 0 ≤ b then posInf else negInf
  | negInf, num b => if 0 ≤ b then negInf else posInf
  | posInf, posInf => nan
  | posInf, negInf => nan
  | negInf, posInf => nan
  | negInf, negInf => nan

/-- JS `Math.abs`. -/
def jsAbs : JsNum → JsNum
  | nan => nan
  | num a => num |a|
  | posInf => posInf
  | negInf => posInf

/-- JS `<` comparison (false whenever either side is NaN). -/
def jsLt : JsNum → JsNum → Bool
  | nan, _ => false
  | _, nan => false
  | num a, num b => decide (a < b)
  | num _, posInf => true
  | num _, negInf => false
  | posInf, _ => false
  | negInf, negInf => false
  | negInf, _ => true

/-- JS `Math.min` of two values (NaN-propagating). -/
def jsMin : JsNum → JsNum → JsNum
  | nan, _ => nan
  | _, nan => nan
  | num a, num b => num (min a b)
  | num a, posInf => num a
  | num _, negInf => negInf
  | posInf, num b => num b
  | posInf, posInf => posInf
  | posInf, negInf => negInf
  | negInf, _ => negInf

/-- JS `Math.max` of two values (NaN-propagating). -/
def jsMax : JsNum → JsNum → JsNum
  | nan, _ => nan
  | _, nan => nan
  | num a, num b => num (max a b)
  | num a, negInf => num a
  | num _, posInf => posInf
  | negInf, num b => num b
  | negInf, negInf => negInf
  | negInf, posInf => posInf
  | posInf, _ => posInf

/-- JS `Math.sqrt`. -/
def jsSqrt : JsNum → JsNum
  | nan => nan
  | num a => if 0 ≤ a then num (Real.sqrt a) else nan
  | posInf => posInf
  | negInf => nan

/-- JS `Math.log`. -/
def jsLog : JsNum → JsNum
  | nan => nan
  | num a => if 0 < a then num (Real.log a) else if a = 0 then negInf else nan
  | posInf => posInf
  | negInf => nan

/-- `Math.max(...xs)`: fold of `jsMax` starting from `-Infinity`
(`Math.max()` of no arguments). -/
def jsMaxList (l : List JsNum) : JsNum := l.foldr jsMax negInf

/-- `Math.min(...xs)`: fold of `jsMin` starting from `+Infinity`. -/
def jsMinList (l : List JsNum) : JsNum := l.foldr jsMin posInf

/-- `xs.reduce((a, b) => a + b, 0)` on JS values. -/
def jsSumL (l : List JsNum) : JsNum := l.foldl jsAdd (num 0)

end JsNum

open JsNum

/-- Rounding to `d` decimal places, the semantics of
`parseFloat(x.toFixed(d))` on a finite value. -/
def roundTo (d : ℕ) (x : ℝ) : ℝ := ((round (x * (10 : ℝ) ^ d) : ℤ) : ℝ) / (10 : ℝ) ^ d

/-- `parseFloat(x.toFixed(2))` on a JS value (`NaN`/`Infinity` round-trip
through their string forms unchanged). -/
def toFixed2J : JsNum → JsNum
  | JsNum.num a => JsNum.num (roundTo 2 a)
  | JsNum.posInf => JsNum.posInf
  | JsNum.negInf => JsNum.negInf
  | JsNum.nan => JsNum.nan

/-- `parseFloat(x.toFixed(1))` on a JS value. -/
def toFixed1J : JsNum → JsNum
  | JsNum.num a => JsNum.num (roundTo 1 a)
  | JsNum.posInf => JsNum.posInf
  | JsNum.negInf => JsNum.negInf
  | JsNum.nan => JsNum.nan

/-- `parseFloat(x.toFixed(3))` on a JS value. -/
def toFixed3J : JsNum → JsNum
  | JsNum.num a => JsNum.num (roundTo 3 a)
  | JsNum.posInf => JsNum.posInf
  | JsNum.negInf => JsNum.negInf
  | JsNum.nan => JsNum.nan

/-- `parseFloat(x.toFixed(0))` on a JS value. -/
def toFixed0J : JsNum → JsNum
  | JsNum.num a => JsNum.num (roundTo 0 a)
  | JsNum.posInf => JsNum.posInf
  | JsNum.negInf => JsNum.negInf
  | JsNum.nan => JsNum.nan

/-- `l.slice(-n)`: the last `n` elements (whole list when `n ≥ length`). -/
def lastN {α : Type} (n : ℕ) (l : List α) : List α := l.drop (l.length - n)

/-- `l.slice(-24, -12)`: elements from 24-from-end up to 12-from-end. -/
def sliceOlder {α : Type} (l : List α) : List α :=
  (lastN 24 l).take ((lastN 24 l).length - 12)

/-- One OHLCV candle (`{open, high, low, close, volume, timestamp}`).
Valid inputs carry finite field values, so fields are plain reals. -/
structure Candle where
  open_ : ℝ
  high : ℝ
  low : ℝ
  close : ℝ
  volume : ℝ
  timestamp : ℝ

/-- The `{price, change24h, volume24h, marketCap, source}` market snapshot. -/
structure MarketData where
  price : ℝ
  change24h : ℝ
  volume24h : ℝ
  marketCap : ℝ
  source : String

/-- `calculateEMA(prices, period)`: seeded simple average then exponential
smoothing; returns the last element when the series is shorter than the
period. -/
def calculateEMA (prices : List ℝ) (period : ℕ) : ℝ :=
  if prices.length < period then prices.getLastI
  else
    let multiplier : ℝ := 2 / ((period : ℝ) + 1)
    (prices.drop period).foldl
      (fun ema p => p * multiplier + ema * (1 - multiplier))
      ((prices.take period).sum / (period : ℝ))

/-- The consecutive deltas `prices[i] - prices[i-1]` used by `calculateRSI`. -/
def changesOf (prices : List ℝ) : List ℝ :=
  (prices.zip prices.tail).map (fun q => q.2 - q.1)

/-- `calculateRSI(prices, period)`: single-window Wilder-style RSI.
Returns 50 on insufficient data, 100 when the average loss is zero. -/
def calculateRSI (prices : List ℝ) (period : ℕ) : ℝ :=
  if prices.length < period + 1 then 50
  else
    let changes := changesOf prices
    let gains := ((changes.take period).filter (fun c => 0 < c)).sum
    let losses := -(((changes.take period).filter (fun c => ¬ 0 < c)).sum)
    let avgGain := gains / (period : ℝ)
    let avgLoss := losses / (period : ℝ)
    if avgLoss = 0 then 100
    else 100 - 100 / (1 + avgGain / avgLoss)

/-- `calculateADX(highs, lows, closes, period)`: simplified single-window
DM/TR accumulation over the first `min(period+1, n)` candles, returning
`|+DI - -DI| / (+DI + -DI) * 100` (NaN/∞ when `tr` or the denominator
degenerates). -/
def calculateADX (highs lows closes : List ℝ) (period : ℕ) : JsNum :=
  let n := min (period + 1) closes.length
  let plusDM := ((List.range (n - 1)).map (fun i =>
    let highDiff := highs.getD (i + 1) 0 - highs.getD i 0
    let lowDiff := lows.getD i 0 - lows.getD (i + 1) 0
    if 0 < highDiff ∧ lowDiff < highDiff then highDiff else 0)).sum
  let minusDM := ((List.range (n - 1)).map (fun i =>
    let highDiff := highs.getD (i + 1) 0 - highs.getD i 0
    let lowDiff := lows.getD i 0 - lows.getD (i + 1) 0
    if 0 < lowDiff ∧ highDiff < lowDiff then lowDiff else 0)).sum
  let tr := ((List.range (n - 1)).map (fun i =>
    max (max (highs.getD (i + 1) 0 - lows.getD (i + 1) 0)
      |highs.getD (i + 1) 0 - closes.getD i 0|)
      |lows.getD (i + 1) 0 - closes.getD i 0|)).sum
  let plusDI := jsMul (jsDiv (num plusDM) (num tr)) (num 100)
  let minusDI := jsMul (jsDiv (num minusDM) (num tr)) (num 100)
  jsMul (jsDiv (jsAbs (jsSub plusDI minusDI)) (jsAdd plusDI minusDI)) (num 100)

/-- `calculateBBWidth(closes, period)`: `4 × stdDev` of the last `period`
closes, `0` on insufficient data.  Always finite. -/
def calculateBBWidth (closes : List ℝ) (period : ℕ) : ℝ :=
  if closes.length < period then 0
  else
    let recent := lastN period closes
    let sma := recent.sum / (period : ℝ)
    let variance := (recent.map (fun p => (p - sma) ^ 2)).sum / (period : ℝ)
    Real.sqrt variance * 4

/-- `calculateATR(candles, period)`: mean true range over the passed window
(the `period` argument is unused by the source body as well); NaN when the
window has fewer than two candles. -/
def calculateATR (candles : List Candle) (_period : ℕ) : JsNum :=
  let trs := (candles.zip candles.tail).map (fun p =>
    max (max (p.2.high - p.2.low) |p.2.high - p.1.close|) |p.2.low - p.1.close|)
  jsDiv (num trs.sum) (num trs.length)

/-- `calculateRealizedVolatility(candles, lookback)`: annualized standard
deviation of log returns of the last `lookback` closes. -/
def calculateRealizedVolatility (candles : List Candle) (lookback : ℕ) : JsNum :=
  let recent := lastN lookback candles
  let closes := recent.map Candle.close
  let returns := (closes.zip closes.tail).map
    (fun p => jsLog (jsDiv (num p.2) (num p.1)))
  let mean := jsDiv (jsSumL returns) (num (returns.length : ℝ))
  let variance := jsDiv
    (jsSumL (returns.map (fun r => jsMul (jsSub r mean) (jsSub r mean))))
    (num (returns.length : ℝ))
  jsMul (jsSqrt variance) (jsSqrt (num (365 * 24)))

/-- The regime-type → volatility-projection multiplier table
(`multipliers[regime.type] || 1.0`). -/
def regimeMultiplier (t : String) : ℝ :=
  if t = "trend" then 1.2
  else if t = "range" then 0.85
  else if t = "expansion" then 1.4
  else if t = "compression" then 0.7
  else 1.0

/-- The classified regime record (strength and ADX keep their JS-number
nature; BB width is always finite). -/
structure Regime where
  type : String
  strength : JsNum
  direction : String
  adx : JsNum
  bbWidth : ℝ

/-- `projectVolatility(realizedVol, horizonHours, lookbackHours, regime)`:
time-scaled realized volatility times the regime multiplier. -/
def projectVolatility (realizedVol : JsNum) (horizonHours lookbackHours : ℝ)
    (regime : Regime) : JsNum :=
  jsMul (jsMul realizedVol (jsSqrt (jsDiv (num horizonHours) (num lookbackHours))))
    (num (regimeMultiplier regime.type))

/-- The ADX-based stage of `detectRegime` (the lines before the BB-width
override): default `range`/`0.5`/`neutral`, replaced by the trend or range
branch when ADX crosses its thresholds. -/
structure PreRegime where
  type : String
  strength : JsNum
  direction : String

/-- The ADX-based classification of `detectRegime`, before the Bollinger
width override is applied. -/
def adxClassify (candles : List Candle) : PreRegime :=
  let closes := candles.map Candle.close
  let highs := candles.map Candle.high
  let lows := candles.map Candle.low
  let adx := calculateADX highs lows closes 14
  if jsLt (num 25) adx then
    { type := "trend"
      strength := jsMin (jsDiv (jsSub adx (num 25)) (num 25)) (num 1)
      direction :=
        if calculateEMA closes 20 > calculateEMA closes 50 then "up" else "down" }
  else if jsLt adx (num 20) then
    { type := "range"
      strength := jsMin (jsDiv (jsSub (num 20) adx) (num 20)) (num 1)
      direction := "neutral" }
  else
    { type := "range", strength := num 0.5, direction := "neutral" }

/-- `detectRegime(candles)`: ADX-based classification followed by the
unconditional Bollinger-width expansion/compression override; final
strength and ADX are rounded at the boundary. -/
def detectRegime (candles : List Candle) : Regime :=
  let closes := candles.map Candle.close
  let highs := candles.map Candle.high
  let lows := candles.map Candle.low
  let adx := calculateADX highs lows closes 14
  let bbWidth := calculateBBWidth closes 20
  let avgBBWidth := closes.getLastI * 0.04
  let pre : PreRegime :=
    if jsLt (num 25) adx then
      { type := "trend"
        strength := jsMin (jsDiv (jsSub adx (num 25)) (num 25)) (num 1)
        direction :=
          if calculateEMA closes 20 > calculateEMA closes 50 then "up" else "down" }
    else if jsLt adx (num 20) then
      { type := "range"
        strength := jsMin (jsDiv (jsSub (num 20) adx) (num 20)) (num 1)
        direction := "neutral" }
    else
      { type := "range", strength := num 0.5, direction := "neutral" }
  let post : String × JsNum :=
    if bbWidth > avgBBWidth * 1.3 then
      ("expansion",
        jsSub (jsMin (jsDiv (num bbWidth) (num (avgBBWidth * 1.3))) (num 1.5)) (num 0.5))
    else if bbWidth < avgBBWidth * 0.7 then
      ("compression",
        jsSub (jsMin (jsDiv (num (avgBBWidth * 0.7)) (num bbWidth)) (num 1.5)) (num 0.5))
    else (pre.type, pre.strength)
  { type := post.1
    strength := toFixed2J post.2
    direction := pre.direction
    adx := toFixed1J adx
    bbWidth := roundTo 2 bbWidth }

/-- `findSwingPoints(prices, type)`: values at interior indices whose value
equals the max (for `"high"`) or min (for `"low"`) of the surrounding
11-element window. -/
def findSwingPoints (prices : List ℝ) (kind : String) : List ℝ :=
  (List.range prices.length).filterMap (fun i =>
    if 5 ≤ i ∧ i + 5 < prices.length then
      let window := (prices.drop (i - 5)).take 11
      let current := prices.getD i 0
      if (if kind = "high" then current = window.foldr max current
          else current = window.foldr min current) then
        some current
      else none
    else none)

/-- `calculateVWAP(candles)`: volume-weighted mean of the typical price. -/
def calculateVWAP (candles : List Candle) : JsNum :=
  let sumPV := (candles.map (fun c => (c.high + c.low + c.close) / 3 * c.volume)).sum
  let sumV := (candles.map Candle.volume).sum
  jsDiv (num sumPV) (num sumV)

/-- `calculateVWAPStdDev(candles, vwap)`: volume-weighted standard deviation
of the typical price about the given VWAP. -/
def calculateVWAPStdDev (candles : List Candle) (vwap : JsNum) : JsNum :=
  let sumSquaredDiff := jsSumL (candles.map (fun c =>
    jsMul (jsMul (jsSub (num ((c.high + c.low + c.close) / 3)) vwap)
      (jsSub (num ((c.high + c.low + c.close) / 3)) vwap)) (num c.volume)))
  let sumV := (candles.map Candle.volume).sum
  jsSqrt (jsDiv sumSquaredDiff (num sumV))

/-- Session high/low, last-3 swing extremes and VWAP bands
(`findMarketStructure`). -/
structure MarketStructure where
  sessionHigh : JsNum
  sessionLow : JsNum
  swingHighs : List JsNum
  swingLows : List JsNum
  vwap : JsNum
  vwapUpper1 : JsNum
  vwapUpper2 : JsNum
  vwapLower1 : JsNum
  vwapLower2 : JsNum

/-- `findMarketStructure(candles)`. -/
def findMarketStructure (candles : List Candle) : MarketStructure :=
  let highs := candles.map Candle.high
  let lows := candles.map Candle.low
  let session := lastN 24 candles
  let sessionHigh := jsMaxList ((session.map Candle.high).map num)
  let sessionLow := jsMinList ((session.map Candle.low).map num)
  let swingHighs := lastN 3 (findSwingPoints highs "high")
  let swingLows := lastN 3 (findSwingPoints lows "low")
  let vwap := calculateVWAP (lastN 24 candles)
  let vwapStdDev := calculateVWAPStdDev (lastN 24 candles) vwap
  { sessionHigh := sessionHigh
    sessionLow := sessionLow
    swingHighs := swingHighs.map num
    swingLows := swingLows.map num
    vwap := vwap
    vwapUpper1 := jsAdd vwap vwapStdDev
    vwapUpper2 := jsAdd vwap (jsMul vwapStdDev (num 2))
    vwapLower1 := jsSub vwap vwapStdDev
    vwapLower2 := jsSub vwap (jsMul vwapStdDev (num 2)) }

/-- The slope of `calculateMomentum`:
`(close[-1] - close[-(periods+1)]) / periods`, a finite real. -/
def momentumSlope (candles : List Candle) (periods : ℕ) : ℝ :=
  let recent := lastN (periods + 1) (candles.map Candle.close)
  (recent.getLastI - recent.headI) / (periods : ℝ)

/-- `calculateMomentum(candles, periods)`: ATR-normalized slope clamped by
`Math.max(-1, Math.min(1, ·))`. -/
def calculateMomentum (candles : List Candle) (periods : ℕ) : JsNum :=
  let slope := momentumSlope candles periods
  let atr := calculateATR (lastN periods candles) periods
  jsMax (num (-1)) (jsMin (num 1) (jsDiv (num slope) atr))

/-- `calculateConfidence(candles, regime, structure, currentPrice, marketData)`:
base 0.70 plus volatility-stability, regime-clarity, structure-proximity and
volume-quality adjustments, clamped by `Math.max(0.4, Math.min(0.95, ·))`. -/
def calculateConfidence (candles : List Candle) (regime : Regime)
    (struct : MarketStructure) (currentPrice : ℝ) (_marketData : MarketData) :
    JsNum :=
  let recentVol := calculateRealizedVolatility (lastN 12 candles) 12
  let olderVol := calculateRealizedVolatility (sliceOlder candles) 12
  let volStability := jsSub (num 1) (jsDiv (jsAbs (jsSub recentVol olderVol)) olderVol)
  let c1 := jsAdd (num 0.7) (jsMul (jsSub volStability (num 0.5)) (num 0.3))
  let c2 := jsAdd c1 (jsMul (jsSub regime.strength (num 0.5)) (num 0.2))
  let nearSupport := jsLt (num (currentPrice * 0.98)) (jsMinList struct.swingLows)
  let nearResistance := jsLt (jsMaxList struct.swingHighs) (num (currentPrice * 1.02))
  let c3 := if nearSupport || nearResistance then jsAdd c2 (num 0.10) else c2
  let avgVolume := ((lastN 24 candles).map Candle.volume).sum / 24
  let recentVolume := ((lastN 6 candles).map Candle.volume).sum / 6
  let c4 :=
    if avgVolume * 1.2 < recentVolume then jsAdd c3 (num 0.05)
    else if recentVolume < avgVolume * 0.8 then jsSub c3 (num 0.05)
    else c3
  jsMax (num 0.4) (jsMin (num 0.95) c4)

/-- `classifyVolatility(realizedVol, candles)`: percentile rank of the
current realized vol within the trailing 24-candle history.  The source
sorts the history before counting; sorting does not change the count, so
the sort is elided here. -/
def classifyVolatility (realizedVol : JsNum) (candles : List Candle) : String :=
  let volHistory := (List.range candles.length).filterMap (fun i =>
    if 24 ≤ i then some (calculateRealizedVolatility ((candles.drop (i - 24)).take 24) 24)
    else none)
  let percentile := jsDiv (num ((volHistory.filter (fun v => jsLt v realizedVol)).length : ℝ))
    (num (volHistory.length : ℝ))
  if jsLt percentile (num 0.33) then "low"
  else if jsLt (num 0.67) percentile then "high"
  else "normal"

/-- The numeric payloads of `generateInvalidations` (the string templating
around them is presentation and is elided). -/
structure Invalidations where
  hardBreakLow : JsNum
  hardBreakHigh : JsNum
  hardVolSpike : JsNum
  hardVolumeCap : JsNum
  softTimeLimit : JsNum

/-- `generateInvalidations(low, high, vol, horizon, candles)`. -/
def generateInvalidations (low high vol : JsNum) (horizon : ℝ)
    (candles : List Candle) : Invalidations :=
  let avgVolume := ((lastN 24 candles).map Candle.volume).sum / 24
  { hardBreakLow := toFixed0J (jsMul low (num 0.97))
    hardBreakHigh := toFixed0J (jsMul high (num 1.03))
    hardVolSpike := toFixed1J (jsMul (jsMul vol (num 2)) (num 100))
    hardVolumeCap := toFixed1J (jsDiv (jsMul (num avgVolume) (num 5)) (num 1000000))
    softTimeLimit := num (horizon * 2) }

/-- `anchorToSupport(price, structure, maxAdjustment)`: snap to the highest
support strictly below `price` and within a quarter of the width. -/
def anchorToSupport (price : JsNum) (struct : MarketStructure)
    (maxAdjustment : JsNum) : JsNum :=
  let tolerance := jsMul maxAdjustment (num 0.25)
  let supports :=
    (struct.sessionLow :: struct.swingLows
      ++ [struct.vwapLower1, struct.vwapLower2]).filter
      (fun s => jsLt s price && jsLt (jsSub price tolerance) s)
  if 0 < supports.length then jsMaxList supports else price

/-- `anchorToResistance(price, structure, maxAdjustment)`: snap to the
lowest resistance strictly above `price` and within a quarter of the width. -/
def anchorToResistance (price : JsNum) (struct : MarketStructure)
    (maxAdjustment : JsNum) : JsNum :=
  let tolerance := jsMul maxAdjustment (num 0.25)
  let resistances :=
    (struct.sessionHigh :: struct.swingHighs
      ++ [struct.vwapUpper1, struct.vwapUpper2]).filter
      (fun r => jsLt price r && jsLt r (jsAdd price tolerance))
  if 0 < resistances.length then jsMinList resistances else price

/-- The STEP-7 width multiplier of `calculatePriceRange`. -/
def widthMultiplierOf (t : String) : ℝ :=
  if t = "expansion" then 1.35
  else if t = "compression" then 0.75
  else if t = "trend" then 1.15
  else if t = "range" then 0.9
  else 1.0

/-- STEPs 5–7 of `calculatePriceRange`: the regime-adjusted width
`price × projectedVol × 1.65 × widthMultiplier`. -/
def adjustedWidthOf (candles : List Candle) (currentPrice horizonHours : ℝ) : JsNum :=
  jsMul
    (jsMul (jsMul (num currentPrice)
      (projectVolatility (calculateRealizedVolatility candles 24) horizonHours 24
        (detectRegime candles)))
      (num 1.65))
    (num (widthMultiplierOf (detectRegime candles).type))

/-- The `range` sub-record of a `RangePrediction`. -/
structure RangeInfo where
  low : JsNum
  high : JsNum
  center : JsNum
  width : JsNum
  widthPercent : JsNum

/-- The `volatility` sub-record of a `RangePrediction`. -/
structure VolInfo where
  state : String
  realized : JsNum
  projected : JsNum

/-- The `momentum` sub-record of a `RangePrediction`. -/
structure MomentumInfo where
  value : JsNum
  bias : String

/-- The output record of `calculatePriceRange` (the `timeframe` label, a
string render of `horizonHours`, is elided). -/
structure RangePrediction where
  horizonHours : ℝ
  range : RangeInfo
  confidence : JsNum
  volatility : VolInfo
  regime : Regime
  momentum : MomentumInfo
  invalidations : Invalidations

/-- `calculatePriceRange(candles, currentPrice, horizonHours, marketData)`:
the central range-projection pipeline. -/
def calculatePriceRange (candles : List Candle) (currentPrice horizonHours : ℝ)
    (marketData : MarketData) : RangePrediction :=
  let regime := detectRegime candles
  let realizedVol := calculateRealizedVolatility candles 24
  let projectedVol := projectVolatility realizedVol horizonHours 24 regime
  let struct := findMarketStructure candles
  let momentum := calculateMomentum candles 10
  let skewFactor := jsMul momentum (num 0.12)
  let centerPrice := jsMul (num currentPrice) (jsAdd (num 1) skewFactor)
  let adjustedWidth := adjustedWidthOf candles currentPrice horizonHours
  let rangeLow0 := jsSub centerPrice (jsDiv adjustedWidth (num 2))
  let rangeHigh0 := jsAdd centerPrice (jsDiv adjustedWidth (num 2))
  let rangeLow := anchorToSupport rangeLow0 struct adjustedWidth
  let rangeHigh := anchorToResistance rangeHigh0 struct adjustedWidth
  let confidence := calculateConfidence candles regime struct currentPrice marketData
  let volPercentile := classifyVolatility realizedVol candles
  let bias :=
    if jsLt (num 0.25) momentum then "slight bullish"
    else if jsLt momentum (num (-0.25)) then "slight bearish"
    else "neutral"
  { horizonHours := horizonHours
    range :=
      { low := toFixed2J rangeLow
        high := toFixed2J rangeHigh
        center := toFixed2J centerPrice
        width := toFixed2J (jsSub rangeHigh rangeLow)
        widthPercent := toFixed2J (jsMul (jsDiv (jsSub rangeHigh rangeLow)
          (num currentPrice)) (num 100)) }
    confidence := toFixed1J (jsMul confidence (num 100))
    volatility :=
      { state := volPercentile
        realized := toFixed2J (jsMul realizedVol (num 100))
        projected := toFixed2J (jsMul projectedVol (num 100)) }
    regime := regime
    momentum := { value := toFixed3J momentum, bias := bias }
    invalidations := generateInvalidations rangeLow rangeHigh realizedVol
      horizonHours candles }

/-- One trading-zone band. -/
structure Zone where
  low : JsNum
  high : JsNum
  description : String

/-- The five bands plus the current-zone label (`generateTradingZones`). -/
structure TradingZones where
  strongBuyZone : Zone
  buyZone : Zone
  neutralZone : Zone
  sellZone : Zone
  strongSellZone : Zone
  currentZone : String

/-- `determineCurrentZone(price, low, high, width)`: band of
`(price - low) / width`; every comparison against a NaN position is false,
so NaN falls through to the final band. -/
def determineCurrentZone (price low _high width : JsNum) : String :=
  let position := jsDiv (jsSub price low) width
  if jsLt position (num 0.15) then "Strong Buy Zone"
  else if jsLt position (num 0.35) then "Buy Zone"
  else if jsLt position (num 0.65) then "Neutral Zone"
  else if jsLt position (num 0.85) then "Sell Zone"
  else "Strong Sell Zone"

/-- `generateTradingZones(rangePrediction, currentPrice)`: partition of the
prediction's range at cumulative width fractions 0/0.15/0.35/0.65/0.85/1. -/
def generateTradingZones (rangePrediction : RangePrediction) (currentPrice : ℝ) :
    TradingZones :=
  let low := rangePrediction.range.low
  let high := rangePrediction.range.high
  let width := jsSub high low
  { strongBuyZone :=
      { low := toFixed2J low
        high := toFixed2J (jsAdd low (jsMul width (num 0.15)))
        description := "Aggressive entry - best risk/reward" }
    buyZone :=
      { low := toFixed2J (jsAdd low (jsMul width (num 0.15)))
        high := toFixed2J (jsAdd low (jsMul width (num 0.35)))
        description := "Good entry - near support" }
    neutralZone :=
      { low := toFixed2J (jsAdd low (jsMul width (num 0.35)))
        high := toFixed2J (jsAdd low (jsMul width (num 0.65)))
        description := "Avoid - low edge, chop zone" }
    sellZone :=
      { low := toFixed2J (jsAdd low (jsMul width (num 0.65)))
        high := toFixed2J (jsAdd low (jsMul width (num 0.85)))
        description := "Take profits - near resistance" }
    strongSellZone :=
      { low := toFixed2J (jsAdd low (jsMul width (num 0.85)))
        high := toFixed2J high
        description := "Exit all - high rejection risk" }
    currentZone := determineCurrentZone (num currentPrice) low high width }

/-! ### Computation rules for the JS-number operations -/

namespace JsNum

@[simp] theorem jsAdd_num_num (a b : ℝ) : jsAdd (num a) (num b) = num (a + b) := rfl

@[simp] theorem jsAdd_nan_left (x : JsNum) : jsAdd nan x = nan := by cases x <;> rfl

@[simp] theorem jsAdd_nan_right (x : JsNum) : jsAdd x nan = nan := by
  cases x <;> rfl

@[simp] theorem jsAdd_negInf_num (a : ℝ) : jsAdd negInf (num a) = negInf := rfl

@[simp] theorem jsAdd_num_negInf (a : ℝ) : jsAdd (num a) negInf = negInf := rfl

@[simp] theorem jsNeg_num (a : ℝ) : jsNeg (num a) = num (-a) := rfl

@[simp] theorem jsSub_num_num (a b : ℝ) : jsSub (num a) (num b) = num (a - b) := by
  simp [jsSub, sub_eq_add_neg]

@[simp] theorem jsSub_nan_left (x : JsNum) : jsSub nan x = nan := by cases x <;> rfl

@[simp] theorem jsSub_nan_right (x : JsNum) : jsSub x nan = nan := by
  cases x <;> rfl

@[simp] theorem jsSub_negInf_num (a : ℝ) : jsSub negInf (num a) = negInf := rfl

@[simp] theorem jsSub_num_posInf (a : ℝ) : jsSub (num a) posInf = negInf := rfl

@[simp] theorem jsSub_num_negInf (a : ℝ) : jsSub (num a) negInf = posInf := rfl

@[simp] theorem jsMul_num_num (a b : ℝ) : jsMul (num a) (num b) = num (a * b) := rfl

@[simp] theorem jsMul_nan_left (x : JsNum) : jsMul nan x = nan := by cases x <;> rfl

@[simp] theorem jsMul_nan_right (x : JsNum) : jsMul x nan = nan := by
  cases x <;> rfl

theorem jsMul_negInf_num_pos {b : ℝ} (h : 0 < b) :
    jsMul negInf (num b) = negInf := by simp [jsMul, h]

@[simp] theorem jsDiv_nan_left (x : JsNum) : jsDiv nan x = nan := by cases x <;> rfl

@[simp] theorem jsDiv_nan_right (x : JsNum) : jsDiv x nan = nan := by
  cases x <;> rfl

theorem jsDiv_num_num {b : ℝ} (a : ℝ) (h : b ≠ 0) :
    jsDiv (num a) (num b) = num (a / b) := by simp [jsDiv, h]

@[simp] theorem jsDiv_zero_zero : jsDiv (num 0) (num 0) = nan := by
  simp [jsDiv]

theorem jsDiv_num_zero_pos {a : ℝ} (h : 0 < a) :
    jsDiv (num a) (num 0) = posInf := by simp [jsDiv, h]

theorem jsDiv_num_zero_neg {a : ℝ} (h : a < 0) :
    jsDiv (num a) (num 0) = negInf := by simp [jsDiv, h, asymm h]

theorem jsSqrt_num {a : ℝ} (h : 0 ≤ a) :
    jsSqrt (num a) = num (Real.sqrt a) := by simp [jsSqrt, h]

@[simp] theorem jsSqrt_nan : jsSqrt nan = nan := rfl

theorem jsLog_num_pos {a : ℝ} (h : 0 < a) :
    jsLog (num a) = num (Real.log a) := by simp [jsLog, h]

@[simp] theorem jsAbs_num (a : ℝ) : jsAbs (num a) = num |a| := rfl

@[simp] theorem jsLt_nan_left (x : JsNum) : jsLt nan x = false := by cases x <;> rfl

@[simp] theorem jsLt_nan_right (x : JsNum) : jsLt x nan = false := by
  cases x <;> rfl

@[simp] theorem jsLt_num_num (a b : ℝ) : jsLt (num a) (num b) = decide (a < b) := rfl

@[simp] theorem jsLt_num_posInf (a : ℝ) : jsLt (num a) posInf = true := rfl

@[simp] theorem jsLt_num_negInf (a : ℝ) : jsLt (num a) negInf = false := rfl

@[simp] theorem jsLt_posInf_left (x : JsNum) : jsLt posInf x = false := by
  cases x <;> rfl

@[simp] theorem jsLt_negInf_num (a : ℝ) : jsLt negInf (num a) = true := rfl

@[simp] theorem jsMin_num_num (a b : ℝ) : jsMin (num a) (num b) = num (min a b) := rfl

@[simp] theorem jsMin_nan_right (x : JsNum) : jsMin x nan = nan := by
  cases x <;> rfl

@[simp] theorem jsMin_num_negInf (a : ℝ) : jsMin (num a) negInf = negInf := rfl

@[simp] theorem jsMin_num_posInf (a : ℝ) : jsMin (num a) posInf = num a := rfl

@[simp] theorem jsMin_posInf_num (a : ℝ) : jsMin posInf (num a) = num a := rfl

@[simp] theorem jsMin_negInf_left (x : JsNum) : x ≠ nan → jsMin negInf x = negInf := by
  cases x <;> simp [jsMin]

@[simp] theorem jsMax_num_num (a b : ℝ) : jsMax (num a) (num b) = num (max a b) := rfl

@[simp] theorem jsMax_nan_right (x : JsNum) : jsMax x nan = nan := by
  cases x <;> rfl

@[simp] theorem jsMax_num_negInf (a : ℝ) : jsMax (num a) negInf = num a := rfl

@[simp] theorem jsMax_num_posInf (a : ℝ) : jsMax (num a) posInf = posInf := rfl

@[simp] theorem jsMax_negInf_num (a : ℝ) : jsMax negInf (num a) = num a := rfl

@[simp] theorem num_injEq (a b : ℝ) : (num a = num b) ↔ a = b := by
  constructor
  · intro h; injection h
  · intro h; rw [h]

@[simp] theorem num_ne_nan (a : ℝ) : num a ≠ nan := by intro h; cases h

@[simp] theorem nan_ne_num (a : ℝ) : nan ≠ num a := by intro h; cases h

/-- `xs.reduce((a,b) => a+b, 0)` over a list of zeros is zero. -/
theorem jsSumL_all_zero {l : List JsNum} (h : ∀ x ∈ l, x = num 0) :
    jsSumL l = num 0 := by
  suffices key : ∀ (l : List JsNum) (acc : ℝ), (∀ x ∈ l, x = num 0) →
      l.foldl jsAdd (num acc) = num acc by
    exact key l 0 h
  intro l
  induction l with
  | nil => intro acc _; rfl
  | cons a t ih =>
    intro acc h
    have ha := h a (List.mem_cons_self a t)
    subst ha
    have : jsAdd (num acc) (num 0) = num acc := by simp
    simpa [List.foldl_cons, this] using
      ih acc (fun x hx => h x (List.mem_cons_of_mem _ hx))

/-- A fold of `jsMax` over finite values within `[c, d]` stays finite and
within `[c, d]`. -/
theorem jsMaxList_num_bounds {l : List JsNum} {c d : ℝ} (hne : l ≠ [])
    (h : ∀ x ∈ l, ∃ a : ℝ, x = num a ∧ c ≤ a ∧ a ≤ d) :
    ∃ m : ℝ, jsMaxList l = num m ∧ c ≤ m ∧ m ≤ d := by
  induction l with
  | nil => exact absurd rfl hne
  | cons x t ih =>
    obtain ⟨a, rfl, hca, had⟩ := h _ (List.mem_cons_self x t)
    cases t with
    | nil => exact ⟨a, by simp [jsMaxList], hca, had⟩
    | cons y t2 =>
      obtain ⟨m, hm, hcm, hmd⟩ :=
        ih (by simp) (fun z hz => h z (List.mem_cons_of_mem _ hz))
      refine ⟨max a m, ?_, le_max_of_le_left hca, max_le had hmd⟩
      simp only [jsMaxList, List.foldr_cons] at hm ⊢
      rw [hm]; simp

/-- A fold of `jsMin` over finite values within `[c, d]` stays finite and
within `[c, d]`. -/
theorem jsMinList_num_bounds {l : List JsNum} {c d : ℝ} (hne : l ≠ [])
    (h : ∀ x ∈ l, ∃ a : ℝ, x = num a ∧ c ≤ a ∧ a ≤ d) :
    ∃ m : ℝ, jsMinList l = num m ∧ c ≤ m ∧ m ≤ d := by
  induction l with
  | nil => exact absurd rfl hne
  | cons x t ih =>
    obtain ⟨a, rfl, hca, had⟩ := h _ (List.mem_cons_self x t)
    cases t with
    | nil => exact ⟨a, by simp [jsMinList], hca, had⟩
    | cons y t2 =>
      obtain ⟨m, hm, hcm, hmd⟩ :=
        ih (by simp) (fun z hz => h z (List.mem_cons_of_mem _ hz))
      refine ⟨min a m, ?_, le_min hca hcm, min_le_of_left_le had⟩
      simp only [jsMinList, List.foldr_cons] at hm ⊢
      rw [hm]; simp

/-- Two JS values can never satisfy both strict orders at once, whatever
their kinds (finite, infinite or NaN). -/
theorem jsLt_both_false (s : JsNum) (x : ℝ) :
    (jsLt s (num x) && jsLt (num x) s) = false := by
  cases s with
  | num a =>
    by_cases h : a < x
    · simp [h, asymm h]
    · simp [h]
  | posInf => simp
  | negInf => simp
  | nan => simp

end JsNum

/-! ### Helper lemmas about windows and constant series -/

@[simp] theorem lastN_length {α : Type} (n : ℕ) (l : List α) :
    (lastN n l).length = min n l.length := by
  simp only [lastN, List.length_drop]
  omega

theorem lastN_subset {α : Type} (n : ℕ) (l : List α) : lastN n l ⊆ l :=
  List.drop_subset _ _

theorem sliceOlder_subset {α : Type} (l : List α) : sliceOlder l ⊆ l :=
  fun _ h => lastN_subset 24 l (List.take_subset _ _ h)

theorem headI_all_eq {l : List ℝ} {k : ℝ} (hne : l ≠ []) (h : ∀ x ∈ l, x = k) :
    l.headI = k := by
  cases l with
  | nil => exact absurd rfl hne
  | cons a t => exact h a (List.mem_cons_self a t)

theorem getLastI_all_eq {l : List ℝ} {k : ℝ} (hne : l ≠ []) (h : ∀ x ∈ l, x = k) :
    l.getLastI = k := by
  rw [List.getLastI_eq_getLast?, List.getLast?_eq_getLast_of_ne_nil hne]
  exact h _ (List.getLast_mem hne)

/-- Realized volatility of a window whose closes are all equal to a positive
constant is exactly zero (log returns all vanish). -/
theorem realizedVol_of_const_closes {candles : List Candle} {k : ℝ} {lookback : ℕ}
    (hk : 0 < k) (hc : ∀ c ∈ candles, c.close = k)
    (hlen : 2 ≤ min lookback candles.length) :
    calculateRealizedVolatility candles lookback = num 0 := by
  have hcl : ∀ x ∈ (lastN lookback candles).map Candle.close, x = k := by
    intro x hx
    obtain ⟨c, hcmem, rfl⟩ := List.mem_map.mp hx
    exact hc c (lastN_subset _ _ hcmem)
  have hret : ∀ r ∈ (((lastN lookback candles).map Candle.close).zip
      ((lastN lookback candles).map Candle.close).tail).map
      (fun p => jsLog (jsDiv (num p.2) (num p.1))), r = num 0 := by
    intro r hr
    obtain ⟨p, hpmem, rfl⟩ := List.mem_map.mp hr
    obtain ⟨h1, h2⟩ := List.of_mem_zip hpmem
    rw [hcl _ h1, hcl _ (List.mem_of_mem_tail h2),
      jsDiv_num_num _ (ne_of_gt hk), div_self (ne_of_gt hk),
      jsLog_num_pos one_pos, Real.log_one]
  have hlen2 : ((((lastN lookback candles).map Candle.close).zip
      ((lastN lookback candles).map Candle.close).tail).map
      (fun p => jsLog (jsDiv (num p.2) (num p.1)))).length =
      min lookback candles.length - 1 := by
    simp [List.length_zip, List.length_tail]
  have hlpos : (0 : ℝ) < ((((lastN lookback candles).map Candle.close).zip
      ((lastN lookback candles).map Candle.close).tail).map
      (fun p => jsLog (jsDiv (num p.2) (num p.1)))).length := by
    rw [hlen2]
    have h1 : 1 ≤ min lookback candles.length - 1 := by omega
    exact_mod_cast Nat.lt_of_lt_of_le Nat.zero_lt_one h1
  have hvarmem : ∀ v ∈ ((((lastN lookback candles).map Candle.close).zip
      ((lastN lookback candles).map Candle.close).tail).map
      (fun p => jsLog (jsDiv (num p.2) (num p.1)))).map
      (fun r => jsMul (jsSub r (num 0)) (jsSub r (num 0))), v = num 0 := by
    intro v hv
    obtain ⟨r, hrmem, rfl⟩ := List.mem_map.mp hv
    rw [hret r hrmem]
    norm_num
  simp only [calculateRealizedVolatility]
  rw [jsSumL_all_zero hret, jsDiv_num_num _ (ne_of_gt hlpos), zero_div,
    jsSumL_all_zero hvarmem, jsDiv_num_num _ (ne_of_gt hlpos), zero_div,
    jsSqrt_num le_rfl, Real.sqrt_zero,
    jsSqrt_num (by norm_num : (0:ℝ) ≤ 365 * 24), jsMul_num_num, zero_mul]

/-- A window of `n` fully flat candles: every OHLC field equals 100. -/
def flatCandles (n : ℕ) : List Candle :=
  (List.range n).map (fun (i : ℕ) =>
    { open_ := 100, high := 100, low := 100, close := 100, volume := 1000
      timestamp := (i : ℝ) })

/-- A window of `n` candles with flat closes (100) but a genuine 99–101
intracandle range, so the ATR is positive. -/
def calmCandles (n : ℕ) : List Candle :=
  (List.range n).map (fun (i : ℕ) =>
    { open_ := 100, high := 101, low := 99, close := 100, volume := 1000
      timestamp := (i : ℝ) })

@[simp] theorem flatCandles_length (n : ℕ) : (flatCandles n).length = n := by
  rw [flatCandles, List.length_map, List.length_range]

@[simp] theorem calmCandles_length (n : ℕ) : (calmCandles n).length = n := by
  rw [calmCandles, List.length_map, List.length_range]

theorem mem_flatCandles {n : ℕ} {c : Candle} (h : c ∈ flatCandles n) :
    c.high = 100 ∧ c.low = 100 ∧ c.close = 100 ∧ c.volume = 1000 := by
  obtain ⟨i, _, rfl⟩ := List.mem_map.mp h
  exact ⟨rfl, rfl, rfl, rfl⟩

theorem mem_calmCandles {n : ℕ} {c : Candle} (h : c ∈ calmCandles n) :
    c.high = 101 ∧ c.low = 99 ∧ c.close = 100 ∧ c.volume = 1000 := by
  obtain ⟨i, _, rfl⟩ := List.mem_map.mp h
  exact ⟨rfl, rfl, rfl, rfl⟩

/-- The ATR of any window of fully flat candles is an exact zero. -/
theorem atr_of_flat_window {l : List Candle} {p : ℕ}
    (h : ∀ c ∈ l, c.high = 100 ∧ c.low = 100 ∧ c.close = 100)
    (hlen : 2 ≤ l.length) :
    calculateATR l p = num 0 := by
  have htr : ∀ t ∈ (l.zip l.tail).map (fun p =>
      max (max (p.2.high - p.2.low) |p.2.high - p.1.close|) |p.2.low - p.1.close|),
      t = (0 : ℝ) := by
    intro t ht
    obtain ⟨q, hq, rfl⟩ := List.mem_map.mp ht
    obtain ⟨h1, h2⟩ := List.of_mem_zip hq
    obtain ⟨hh1, hl1, hc1⟩ := h _ h1
    obtain ⟨hh2, hl2, hc2⟩ := h _ (List.mem_of_mem_tail h2)
    rw [hh2, hl2, hc1]
    norm_num
  have hlen2 : ((l.zip l.tail).map (fun p =>
      max (max (p.2.high - p.2.low) |p.2.high - p.1.close|)
        |p.2.low - p.1.close|)).length = l.length - 1 := by
    simp [List.length_zip, List.length_tail]
  simp only [calculateATR]
  rw [List.sum_eq_zero htr, hlen2,
    jsDiv_num_num _ (by
      have : (1 : ℝ) ≤ (l.length - 1 : ℕ) := by exact_mod_cast by omega
      linarith), zero_div]

/-- The ATR of any window of 99–101 candles with flat closes is exactly 2. -/
theorem atr_of_calm_window {l : List Candle} {p : ℕ}
    (h : ∀ c ∈ l, c.high = 101 ∧ c.low = 99 ∧ c.close = 100)
    (hlen : 2 ≤ l.length) :
    calculateATR l p = num 2 := by
  have htr : ∀ t ∈ (l.zip l.tail).map (fun p =>
      max (max (p.2.high - p.2.low) |p.2.high - p.1.close|) |p.2.low - p.1.close|),
      t = (2 : ℝ) := by
    intro t ht
    obtain ⟨q, hq, rfl⟩ := List.mem_map.mp ht
    obtain ⟨h1, h2⟩ := List.of_mem_zip hq
    obtain ⟨hh1, hl1, hc1⟩ := h _ h1
    obtain ⟨hh2, hl2, hc2⟩ := h _ (List.mem_of_mem_tail h2)
    rw [hh2, hl2, hc1]
    norm_num
  have hlen2 : ((l.zip l.tail).map (fun p =>
      max (max (p.2.high - p.2.low) |p.2.high - p.1.close|)
        |p.2.low - p.1.close|)).length = l.length - 1 := by
    simp [List.length_zip, List.length_tail]
  have hm : (1 : ℝ) ≤ (l.length - 1 : ℕ) := by exact_mod_cast by omega
  simp only [calculateATR]
  rw [List.sum_eq_card_nsmul _ _ htr, hlen2, jsDiv_num_num _ (by linarith)]
  rw [nsmul_eq_mul, mul_comm, mul_div_assoc, div_self (by linarith), mul_one]

/-- Momentum slope vanishes on a window with constant closes. -/
theorem momentumSlope_const {l : List Candle} {k : ℝ} (p : ℕ) (hne : l ≠ [])
    (hc : ∀ c ∈ l, c.close = k) : momentumSlope l p = 0 := by
  have hlen : (lastN (p + 1) (l.map Candle.close)).length = min (p + 1) l.length := by
    rw [lastN_length, List.length_map]
  have hnen : lastN (p + 1) (l.map Candle.close) ≠ [] := by
    have hl : 0 < l.length := List.length_pos.mpr hne
    intro hcon
    rw [← List.length_eq_zero, hlen] at hcon
    omega
  have hall : ∀ x ∈ lastN (p + 1) (l.map Candle.close), x = k := by
    intro x hx
    obtain ⟨c, hcm, rfl⟩ := List.mem_map.mp (lastN_subset _ _ hx)
    exact hc c hcm
  simp only [momentumSlope]
  rw [getLastI_all_eq hnen hall, headI_all_eq hnen hall, sub_self, zero_div]

/-- On a fully flat window the momentum is the 0/0 NaN. -/
theorem momentum_flat_nan {n : ℕ} (hn : 2 ≤ n) :
    calculateMomentum (flatCandles n) 10 = JsNum.nan := by
  have hslope : momentumSlope (flatCandles n) 10 = 0 :=
    momentumSlope_const 10 (by
      intro hcon
      have := congrArg List.length hcon
      simp at this
      omega) (fun c hc => (mem_flatCandles hc).2.2.1)
  have hatr : calculateATR (lastN 10 (flatCandles n)) 10 = num 0 :=
    atr_of_flat_window
      (fun c hc => ⟨(mem_flatCandles (lastN_subset _ _ hc)).1,
        (mem_flatCandles (lastN_subset _ _ hc)).2.1,
        (mem_flatCandles (lastN_subset _ _ hc)).2.2.1⟩)
      (by rw [lastN_length, flatCandles_length]; omega)
  simp only [calculateMomentum]
  rw [hslope, hatr, jsDiv_zero_zero, jsMin_nan_right, jsMax_nan_right]

/-- On a calm window (flat closes, ATR 2) the momentum is an exact zero. -/
theorem momentum_calm_zero {n : ℕ} (hn : 2 ≤ n) :
    calculateMomentum (calmCandles n) 10 = num 0 := by
  have hslope : momentumSlope (calmCandles n) 10 = 0 :=
    momentumSlope_const 10 (by
      intro hcon
      have := congrArg List.length hcon
      simp at this
      omega) (fun c hc => (mem_calmCandles hc).2.2.1)
  have hatr : calculateATR (lastN 10 (calmCandles n)) 10 = num 2 :=
    atr_of_calm_window
      (fun c hc => ⟨(mem_calmCandles (lastN_subset _ _ hc)).1,
        (mem_calmCandles (lastN_subset _ _ hc)).2.1,
        (mem_calmCandles (lastN_subset _ _ hc)).2.2.1⟩)
      (by rw [lastN_length, calmCandles_length]; omega)
  simp only [calculateMomentum]
  rw [hslope, hatr, jsDiv_num_num _ (by norm_num : (2:ℝ) ≠ 0), zero_div]
  norm_num

theorem list_sum_nonpos {l : List ℝ} (h : ∀ x ∈ l, x ≤ 0) : l.sum ≤ 0 := by
  induction l with
  | nil => simp
  | cons a t ih =>
    rw [List.sum_cons]
    have ha := h a (List.mem_cons_self a t)
    have ht := ih (fun x hx => h x (List.mem_cons_of_mem _ hx))
    linarith

/-! ### Claims -/

/-- C8: `determineCurrentZone` saturates out-of-range prices to the extreme
bands: a negative position lands in the Strong Buy band, a position above 1
in the Strong Sell band; in particular `price = low` gives Strong Buy and
`price = high` (with `width = high - low > 0`) gives Strong Sell. -/
theorem currentZone_saturates :
    (∀ price low high width : ℝ, (price - low) / width < 0 →
      determineCurrentZone (num price) (num low) (num high) (num width) =
        "Strong Buy Zone") ∧
    (∀ price low high width : ℝ, 1 < (price - low) / width →
      determineCurrentZone (num price) (num low) (num high) (num width) =
        "Strong Sell Zone") ∧
    (∀ low high width : ℝ, 0 < width →
      determineCurrentZone (num low) (num low) (num high) (num width) =
        "Strong Buy Zone") ∧
    (∀ low high : ℝ, 0 < high - low →
      determineCurrentZone (num high) (num low) (num high) (num (high - low)) =
        "Strong Sell Zone") := by
  refine ⟨?_, ?_, ?_, ?_⟩
  · intro price low high width hpos
    have hw : width ≠ 0 := by
      intro h0
      rw [h0, div_zero] at hpos
      exact absurd hpos (lt_irrefl 0)
    simp only [determineCurrentZone, jsSub_num_num, jsDiv_num_num _ hw,
      jsLt_num_num, decide_eq_true_eq]
    rw [if_pos (by linarith)]
  · intro price low high width hpos
    have hw : width ≠ 0 := by
      intro h0
      rw [h0, div_zero] at hpos
      linarith
    simp only [determineCurrentZone, jsSub_num_num, jsDiv_num_num _ hw,
      jsLt_num_num, decide_eq_true_eq]
    rw [if_neg (by linarith), if_neg (by linarith), if_neg (by linarith),
      if_neg (by linarith)]
  · intro low high width hw
    simp only [determineCurrentZone, jsSub_num_num, sub_self,
      jsDiv_num_num _ (ne_of_gt hw), zero_div, jsLt_num_num, decide_eq_true_eq]
    rw [if_pos (by norm_num)]
  · intro low high hw
    simp only [determineCurrentZone, jsSub_num_num,
      jsDiv_num_num _ (ne_of_gt hw), div_self (ne_of_gt hw), jsLt_num_num,
      decide_eq_true_eq]
    rw [if_neg (by norm_num), if_neg (by norm_num), if_neg (by norm_num),
      if_neg (by norm_num)]

/-- C8 witness: the saturation behaviour at concrete inputs
(price 50 below the range 100–200, price 250 above it, and the two
boundary scenarios). -/
theorem currentZone_saturates_witness :
    determineCurrentZone (num 50) (num 100) (num 200) (num 100) =
      "Strong Buy Zone" ∧
    determineCurrentZone (num 250) (num 100) (num 200) (num 100) =
      "Strong Sell Zone" ∧
    determineCurrentZone (num 100) (num 100) (num 200) (num 100) =
      "Strong Buy Zone" ∧
    determineCurrentZone (num 200) (num 100) (num 200) (num (200 - 100)) =
      "Strong Sell Zone" :=
  ⟨currentZone_saturates.1 50 100 200 100 (by norm_num),
    currentZone_saturates.2.1 250 100 200 100 (by norm_num),
    currentZone_saturates.2.2.1 100 200 100 (by norm_num),
    currentZone_saturates.2.2.2 100 200 (by norm_num)⟩

/-- C10 counterexample: with a degenerate range (`low = high = 100`,
`width = 0`) a price below the range gives position `-1/0 = -Infinity`,
and `-Infinity < 0.15` holds, so the code answers "Strong Buy Zone" —
not "Strong Sell Zone" as the claim asserts for every price. -/
theorem currentZone_degenerate_refuted :
    determineCurrentZone (num 99) (num 100) (num 100) (num 0) =
      "Strong Buy Zone" ∧
    ("Strong Buy Zone" : String) ≠ "Strong Sell Zone" := by
  constructor
  · simp only [determineCurrentZone, jsSub_num_num]
    rw [jsDiv_num_zero_neg (by norm_num : (99 : ℝ) - 100 < 0)]
    rfl
  · intro h
    simp at h

/-- C10 (amended): with a degenerate range (`width = 0`), every price at or
above `low` lands in "Strong Sell Zone": at `price = low` the position is
the NaN `0/0` and every `<` test fails, above `low` it is `+Infinity`;
prices below `low` give `-Infinity` and land in "Strong Buy Zone" instead. -/
theorem currentZone_degenerate_amended (price low : ℝ) (h : low ≤ price) :
    determineCurrentZone (num price) (num low) (num low) (num 0) =
      "Strong Sell Zone" := by
  rcases eq_or_lt_of_le h with heq | hlt
  · simp only [determineCurrentZone, jsSub_num_num, ← heq, sub_self,
      jsDiv_zero_zero, jsLt_nan_left]
    rfl
  · simp only [determineCurrentZone, jsSub_num_num]
    rw [jsDiv_num_zero_pos (by linarith : (0 : ℝ) < price - low)]
    rfl

/-- C10 witness: at `price = low = 100` (the NaN 0/0 position) the answer
is "Strong Sell Zone". -/
theorem currentZone_degenerate_amended_witness :
    determineCurrentZone (num 100) (num 100) (num 100) (num 0) =
      "Strong Sell Zone" :=
  currentZone_degenerate_amended 100 100 (le_refl 100)

/-- C9: the RSI is always within `[0, 100]`; it is exactly 50 on a series
shorter than `period + 1`, and exactly 100 when the first `period` sampled
deltas are all non-negative (so the average loss is exactly zero). -/
theorem rsi_contract (prices : List ℝ) (period : ℕ) (hp : 1 ≤ period) :
    (0 ≤ calculateRSI prices period ∧ calculateRSI prices period ≤ 100) ∧
    (prices.length < period + 1 → calculateRSI prices period = 50) ∧
    (period + 1 ≤ prices.length →
      (∀ c ∈ (changesOf prices).take period, 0 ≤ c) →
      calculateRSI prices period = 100) := by
  have hper : (0 : ℝ) < (period : ℝ) := by exact_mod_cast hp
  by_cases hlen : prices.length < period + 1
  · refine ⟨?_, fun _ => ?_, fun hge _ => absurd hge (by omega)⟩
    · simp only [calculateRSI, if_pos hlen]
      norm_num
    · simp only [calculateRSI, if_pos hlen]
  · have hgain : (0 : ℝ) ≤
        (((changesOf prices).take period).filter (fun c => 0 < c)).sum := by
      apply List.sum_nonneg
      intro x hx
      have := List.of_mem_filter hx
      simp only [decide_eq_true_eq] at this
      exact le_of_lt this
    have hloss0 :
        (((changesOf prices).take period).filter (fun c => ¬ 0 < c)).sum ≤ 0 := by
      apply list_sum_nonpos
      intro x hx
      have := List.of_mem_filter hx
      simp only [decide_eq_true_eq, not_lt] at this
      exact this
    refine ⟨?_, fun hcon => absurd hcon hlen, fun _ hnn => ?_⟩
    · simp only [calculateRSI, if_neg hlen]
      by_cases hz : -((((changesOf prices).take period).filter
          (fun c => ¬ 0 < c)).sum) / (period : ℝ) = 0
      · rw [if_pos hz]
        norm_num
      · rw [if_neg hz]
        have hnum : (0 : ℝ) ≤ -((((changesOf prices).take period).filter
            (fun c => ¬ 0 < c)).sum) := by linarith
        have hlpos : 0 < -((((changesOf prices).take period).filter
            (fun c => ¬ 0 < c)).sum) / (period : ℝ) := by
          rcases lt_or_eq_of_le (div_nonneg hnum (le_of_lt hper)) with h | h
          · exact h
          · exact absurd h.symm hz
        have hrs : 0 ≤ ((((changesOf prices).take period).filter
              (fun c => 0 < c)).sum / (period : ℝ)) /
            (-((((changesOf prices).take period).filter
              (fun c => ¬ 0 < c)).sum) / (period : ℝ)) :=
          div_nonneg (div_nonneg hgain (le_of_lt hper)) (le_of_lt hlpos)
        constructor
        · have hdiv : 100 / (1 + ((((changesOf prices).take period).filter
                (fun c => 0 < c)).sum / (period : ℝ)) /
              (-((((changesOf prices).take period).filter
                (fun c => ¬ 0 < c)).sum) / (period : ℝ))) ≤ 100 :=
            div_le_self (by norm_num) (by linarith)
          linarith
        · have hdivpos : 0 < 100 / (1 + ((((changesOf prices).take period).filter
                (fun c => 0 < c)).sum / (period : ℝ)) /
              (-((((changesOf prices).take period).filter
                (fun c => ¬ 0 < c)).sum) / (period : ℝ))) :=
            div_pos (by norm_num) (by linarith)
          linarith
    · have hzero : (((changesOf prices).take period).filter
          (fun c => ¬ 0 < c)).sum = 0 := by
        apply le_antisymm hloss0
        apply List.sum_nonneg
        intro x hx
        exact hnn x (List.mem_of_mem_filter hx)
      simp only [calculateRSI, if_neg hlen]
      rw [if_pos (by rw [hzero]; norm_num)]

/-- C9 witness: a strictly increasing 15-element series has RSI exactly 100
with period 14 (all deltas positive, zero loss), and a 2-element series is
"insufficient data" and yields exactly 50. -/
theorem rsi_contract_witness :
    calculateRSI [0, 1, 2, 3, 4, 5, 6, 7, 8, 9, 10, 11, 12, 13, 14] 14 = 100 ∧
    calculateRSI [1, 2] 14 = 50 ∧
    (0 ≤ calculateRSI [1, 2] 14 ∧ calculateRSI [1, 2] 14 ≤ 100) := by
  refine ⟨?_, ?_, ?_⟩
  · apply (rsi_contract _ 14 (by norm_num)).2.2 (by simp)
    intro c hc
    have hc2 := List.mem_of_mem_take hc
    simp only [changesOf] at hc2
    obtain ⟨p, hp, rfl⟩ := List.mem_map.mp hc2
    simp only [List.zip, List.tail] at hp
    fin_cases hp <;> norm_num
  · exact (rsi_contract _ 14 (by norm_num)).2.1 (by simp)
  · exact (rsi_contract _ 14 (by norm_num)).1

/-- A market structure with a session low at 99, used to show anchoring
moving a range low of 100 downwards. -/
def structWithLow99 : MarketStructure :=
  { sessionHigh := num 200
    sessionLow := num 99
    swingHighs := []
    swingLows := []
    vwap := num 150
    vwapUpper1 := num 1000
    vwapUpper2 := num 1100
    vwapLower1 := num 0
    vwapLower2 := num 0 }

/-- C1 counterexample: with pre-anchoring range low 100 and adjusted width 8
(tolerance 2), the session low 99 qualifies (`99 < 100` and `99 > 98`), and
`anchorToSupport` returns 99 — strictly below the pre-anchoring interval's
lower end 100.  The anchored range is therefore not a subset of the
pre-anchoring interval: anchoring widened it. -/
theorem anchoring_narrows_refuted :
    anchorToSupport (num 100) structWithLow99 (num 8) = num 99 ∧
    (99 : ℝ) < 100 := by
  constructor
  · simp only [anchorToSupport, structWithLow99, jsMul_num_num, jsSub_num_num,
      List.cons_append, List.nil_append, List.filter_cons, jsLt_num_num,
      List.filter_nil]
    norm_num [jsMaxList, jsMax]
  · norm_num

/-- C1 (amended): anchoring can only widen the range, never narrow it, and
by less than a quarter of the adjusted width per side: for a finite
non-negative width, `anchorToSupport` returns a finite value in
`[low - width/4, low]` and `anchorToResistance` a finite value in
`[high, high + width/4]`, whatever the structure levels are. -/
theorem anchoring_only_widens (lo hi w : ℝ) (st : MarketStructure)
    (hw : 0 ≤ w) :
    (∃ rl : ℝ, anchorToSupport (num lo) st (num w) = num rl ∧
      lo - w * 0.25 ≤ rl ∧ rl ≤ lo) ∧
    (∃ rh : ℝ, anchorToResistance (num hi) st (num w) = num rh ∧
      hi ≤ rh ∧ rh ≤ hi + w * 0.25) := by
  constructor
  · simp only [anchorToSupport, jsMul_num_num, jsSub_num_num]
    set supports := (st.sessionLow :: st.swingLows
      ++ [st.vwapLower1, st.vwapLower2]).filter
      (fun s => jsLt s (num lo) && jsLt (num (lo - w * 0.25)) s) with hsup
    have hmem : ∀ x ∈ supports, ∃ a : ℝ, x = num a ∧
        lo - w * 0.25 ≤ a ∧ a ≤ lo := by
      intro x hx
      have hfil := List.of_mem_filter hx
      rw [Bool.and_eq_true] at hfil
      obtain ⟨hf1, hf2⟩ := hfil
      cases x with
      | num a =>
        refine ⟨a, rfl, ?_, ?_⟩
        · have : lo - w * 0.25 < a := by
            simpa [decide_eq_true_eq] using hf2
          linarith
        · have : a < lo := by
            simpa [decide_eq_true_eq] using hf1
          linarith
      | posInf => simp [jsLt] at hf1
      | negInf => simp [jsLt] at hf2
      | nan => simp [jsLt] at hf1
    by_cases hne : 0 < supports.length
    · have hnil : supports ≠ [] := by
        intro hcon
        rw [hcon] at hne
        simp at hne
      obtain ⟨m, hm, h1, h2⟩ := jsMaxList_num_bounds hnil hmem
      rw [if_pos hne, hm]
      exact ⟨m, rfl, h1, h2⟩
    · rw [if_neg hne]
      exact ⟨lo, rfl, by linarith, le_refl lo⟩
  · simp only [anchorToResistance, jsMul_num_num, jsAdd_num_num]
    set resistances := (st.sessionHigh :: st.swingHighs
      ++ [st.vwapUpper1, st.vwapUpper2]).filter
      (fun r => jsLt (num hi) r && jsLt r (num (hi + w * 0.25))) with hres
    have hmem : ∀ x ∈ resistances, ∃ a : ℝ, x = num a ∧
        hi ≤ a ∧ a ≤ hi + w * 0.25 := by
      intro x hx
      have hfil := List.of_mem_filter hx
      rw [Bool.and_eq_true] at hfil
      obtain ⟨hf1, hf2⟩ := hfil
      cases x with
      | num a =>
        refine ⟨a, rfl, ?_, ?_⟩
        · have : hi < a := by
            simpa [decide_eq_true_eq] using hf1
          linarith
        · have : a < hi + w * 0.25 := by
            simpa [decide_eq_true_eq] using hf2
          linarith
      | posInf => simp [jsLt] at hf2
      | negInf => simp [jsLt] at hf1
      | nan => simp [jsLt] at hf1
    by_cases hne : 0 < resistances.length
    · have hnil : resistances ≠ [] := by
        intro hcon
        rw [hcon] at hne
        simp at hne
      obtain ⟨m, hm, h1, h2⟩ := jsMinList_num_bounds hnil hmem
      rw [if_pos hne, hm]
      exact ⟨m, rfl, h1, h2⟩
    · rw [if_neg hne]
      exact ⟨hi, rfl, le_refl hi, by linarith⟩

/-- C1 amended witness: the widening bound at the concrete counterexample
input (low 100, high 200, width 8, structure with session low 99). -/
theorem anchoring_only_widens_witness :
    (∃ rl : ℝ, anchorToSupport (num 100) structWithLow99 (num 8) = num rl ∧
      100 - 8 * 0.25 ≤ rl ∧ rl ≤ 100) ∧
    (∃ rh : ℝ, anchorToResistance (num 200) structWithLow99 (num 8) = num rh ∧
      200 ≤ rh ∧ rh ≤ 200 + 8 * 0.25) :=
  anchoring_only_widens 100 200 8 structWithLow99 (by norm_num)

theorem roundTo_int (d : ℕ) (z : ℤ) : roundTo d (z : ℝ) = z := by
  unfold roundTo
  rw [show ((z : ℝ) * (10 : ℝ) ^ d) = ((z * (10 : ℤ) ^ d : ℤ) : ℝ) by push_cast; ring,
    round_intCast]
  push_cast
  rw [mul_div_assoc, div_self (by positivity), mul_one]

theorem roundTo_mono (d : ℕ) {x y : ℝ} (h : x ≤ y) : roundTo d x ≤ roundTo d y := by
  unfold roundTo
  have hpow : (0 : ℝ) < (10 : ℝ) ^ d := by positivity
  have hmul : x * (10 : ℝ) ^ d ≤ y * (10 : ℝ) ^ d := by nlinarith
  have hr : round (x * (10 : ℝ) ^ d) ≤ round (y * (10 : ℝ) ^ d) := by
    rw [round_eq, round_eq]
    exact Int.floor_mono (by linarith)
  exact (div_le_div_iff_of_pos_right hpow).mpr (by exact_mod_cast hr)

/-- C6: for a RangePrediction whose range bounds are (as the pipeline
produces them) 2-decimal values with `low ≤ high`, the five trading zones
are contiguous — each zone's high is the next zone's low — the outer bounds
are exactly `low` and `high`, the four interior boundaries sit at the
rounded cumulative width fractions 0.15/0.35/0.65/0.85, and the union of
the five bands is exactly `[low, high]`. -/
theorem zones_partition (rp : RangePrediction) (p low high : ℝ)
    (hlow : rp.range.low = num low) (hhigh : rp.range.high = num high)
    (hl2 : roundTo 2 low = low) (hh2 : roundTo 2 high = high)
    (hlh : low ≤ high) :
    (generateTradingZones rp p).strongBuyZone.low = num low ∧
    (generateTradingZones rp p).strongSellZone.high = num high ∧
    (generateTradingZones rp p).strongBuyZone.high =
      (generateTradingZones rp p).buyZone.low ∧
    (generateTradingZones rp p).buyZone.high =
      (generateTradingZones rp p).neutralZone.low ∧
    (generateTradingZones rp p).neutralZone.high =
      (generateTradingZones rp p).sellZone.low ∧
    (generateTradingZones rp p).sellZone.high =
      (generateTradingZones rp p).strongSellZone.low ∧
    ((generateTradingZones rp p).strongBuyZone.high =
        num (roundTo 2 (low + (high - low) * 0.15)) ∧
      (generateTradingZones rp p).buyZone.high =
        num (roundTo 2 (low + (high - low) * 0.35)) ∧
      (generateTradingZones rp p).neutralZone.high =
        num (roundTo 2 (low + (high - low) * 0.65)) ∧
      (generateTradingZones rp p).sellZone.high =
        num (roundTo 2 (low + (high - low) * 0.85))) ∧
    Set.Icc low (roundTo 2 (low + (high - low) * 0.15)) ∪
      Set.Icc (roundTo 2 (low + (high - low) * 0.15))
        (roundTo 2 (low + (high - low) * 0.35)) ∪
      Set.Icc (roundTo 2 (low + (high - low) * 0.35))
        (roundTo 2 (low + (high - low) * 0.65)) ∪
      Set.Icc (roundTo 2 (low + (high - low) * 0.65))
        (roundTo 2 (low + (high - low) * 0.85)) ∪
      Set.Icc (roundTo 2 (low + (high - low) * 0.85)) high =
      Set.Icc low high := by
  have hw : 0 ≤ high - low := by linarith
  have hb01 : low ≤ roundTo 2 (low + (high - low) * 0.15) := by
    calc low = roundTo 2 low := hl2.symm
    _ ≤ _ := roundTo_mono 2 (by nlinarith)
  have hb12 : roundTo 2 (low + (high - low) * 0.15) ≤
      roundTo 2 (low + (high - low) * 0.35) := roundTo_mono 2 (by nlinarith)
  have hb23 : roundTo 2 (low + (high - low) * 0.35) ≤
      roundTo 2 (low + (high - low) * 0.65) := roundTo_mono 2 (by nlinarith)
  have hb34 : roundTo 2 (low + (high - low) * 0.65) ≤
      roundTo 2 (low + (high - low) * 0.85) := roundTo_mono 2 (by nlinarith)
  have hb45 : roundTo 2 (low + (high - low) * 0.85) ≤ high := by
    calc roundTo 2 (low + (high - low) * 0.85) ≤ roundTo 2 high :=
      roundTo_mono 2 (by nlinarith)
    _ = high := hh2
  refine ⟨?_, ?_, ?_, ?_, ?_, ?_, ⟨?_, ?_, ?_, ?_⟩, ?_⟩
  · simp only [generateTradingZones, hlow, toFixed2J, hl2]
  · simp only [generateTradingZones, hhigh, toFixed2J, hh2]
  · rfl
  · rfl
  · rfl
  · rfl
  · simp only [generateTradingZones, hlow, hhigh, jsSub_num_num,
      jsMul_num_num, jsAdd_num_num, toFixed2J]
  · simp only [generateTradingZones, hlow, hhigh, jsSub_num_num,
      jsMul_num_num, jsAdd_num_num, toFixed2J]
  · simp only [generateTradingZones, hlow, hhigh, jsSub_num_num,
      jsMul_num_num, jsAdd_num_num, toFixed2J]
  · simp only [generateTradingZones, hlow, hhigh, jsSub_num_num,
      jsMul_num_num, jsAdd_num_num, toFixed2J]
  · rw [Set.Icc_union_Icc_eq_Icc hb01 hb12,
      Set.Icc_union_Icc_eq_Icc (hb01.trans hb12) hb23,
      Set.Icc_union_Icc_eq_Icc ((hb01.trans hb12).trans hb23) hb34,
      Set.Icc_union_Icc_eq_Icc (((hb01.trans hb12).trans hb23).trans hb34) hb45]

/-- A concrete RangePrediction with range `[100, 200]`, used to witness the
zone-partition contract. -/
def rangePred100200 : RangePrediction :=
  { horizonHours := 2
    range := { low := num 100, high := num 200, center := num 150
               width := num 100, widthPercent := num 100 }
    confidence := num 80
    volatility := { state := "normal", realized := num 2, projected := num 1 }
    regime := { type := "range", strength := num 0.5, direction := "neutral"
                adx := num 15, bbWidth := 3 }
    momentum := { value := num 0, bias := "neutral" }
    invalidations := { hardBreakLow := num 97, hardBreakHigh := num 206
                       hardVolSpike := num 4, hardVolumeCap := num 0
                       softTimeLimit := num 4 } }

/-- C6 witness: the partition contract at the concrete range `[100, 200]`. -/
theorem zones_partition_witness :
    (generateTradingZones rangePred100200 150).strongBuyZone.low = num 100 ∧
    (generateTradingZones rangePred100200 150).strongSellZone.high = num 200 ∧
    (generateTradingZones rangePred100200 150).strongBuyZone.high =
      (generateTradingZones rangePred100200 150).buyZone.low ∧
    (generateTradingZones rangePred100200 150).buyZone.high =
      (generateTradingZones rangePred100200 150).neutralZone.low ∧
    (generateTradingZones rangePred100200 150).neutralZone.high =
      (generateTradingZones rangePred100200 150).sellZone.low ∧
    (generateTradingZones rangePred100200 150).sellZone.high =
      (generateTradingZones rangePred100200 150).strongSellZone.low ∧
    ((generateTradingZones rangePred100200 150).strongBuyZone.high =
        num (roundTo 2 (100 + (200 - 100) * 0.15)) ∧
      (generateTradingZones rangePred100200 150).buyZone.high =
        num (roundTo 2 (100 + (200 - 100) * 0.35)) ∧
      (generateTradingZones rangePred100200 150).neutralZone.high =
        num (roundTo 2 (100 + (200 - 100) * 0.65)) ∧
      (generateTradingZones rangePred100200 150).sellZone.high =
        num (roundTo 2 (100 + (200 - 100) * 0.85))) ∧
    Set.Icc (100 : ℝ) (roundTo 2 (100 + (200 - 100) * 0.15)) ∪
      Set.Icc (roundTo 2 (100 + (200 - 100) * 0.15))
        (roundTo 2 (100 + (200 - 100) * 0.35)) ∪
      Set.Icc (roundTo 2 (100 + (200 - 100) * 0.35))
        (roundTo 2 (100 + (200 - 100) * 0.65)) ∪
      Set.Icc (roundTo 2 (100 + (200 - 100) * 0.65))
        (roundTo 2 (100 + (200 - 100) * 0.85)) ∪
      Set.Icc (roundTo 2 (100 + (200 - 100) * 0.85)) 200 =
      Set.Icc (100 : ℝ) 200 :=
  zones_partition rangePred100200 150 100 200 rfl rfl
    (by exact_mod_cast roundTo_int 2 100)
    (by exact_mod_cast roundTo_int 2 200) (by norm_num)

/-- C3 counterexample: on a fully flat 12-candle window both the slope and
the ATR are zero, the normalization is the NaN `0/0`, and
`Math.max(-1, Math.min(1, NaN))` is NaN — the momentum is not a real number
in `[-1, 1]`. -/
theorem momentum_bounds_refuted :
    calculateMomentum (flatCandles 12) 10 = JsNum.nan ∧
    ¬ ∃ m : ℝ, calculateMomentum (flatCandles 12) 10 = num m ∧
      -1 ≤ m ∧ m ≤ 1 := by
  have hnan := momentum_flat_nan (by norm_num : 2 ≤ 12)
  refine ⟨hnan, ?_⟩
  rintro ⟨m, hm, -, -⟩
  rw [hnan] at hm
  exact (nan_ne_num m) hm

/-- C3 (amended): the momentum is a real number in `[-1, 1]` whenever the
window's ATR is a number `a` and the degenerate `0/0` case (`a = 0` with
zero slope) does not occur; with `a = 0` and a nonzero slope the clamp
still returns ±1. -/
theorem momentum_bounds (candles : List Candle) (periods : ℕ) (a : ℝ)
    (hatr : calculateATR (lastN periods candles) periods = num a)
    (hnd : ¬ (a = 0 ∧ momentumSlope candles periods = 0)) :
    ∃ m : ℝ, calculateMomentum candles periods = num m ∧ -1 ≤ m ∧ m ≤ 1 := by
  simp only [calculateMomentum, hatr]
  by_cases ha : a = 0
  · have hs : momentumSlope candles periods ≠ 0 := fun h => hnd ⟨ha, h⟩
    rcases lt_or_gt_of_ne hs with hneg | hpos
    · rw [ha, jsDiv_num_zero_neg hneg]
      exact ⟨-1, by norm_num [jsMin, jsMax], by norm_num, by norm_num⟩
    · rw [ha, jsDiv_num_zero_pos hpos]
      exact ⟨1, by norm_num [jsMin, jsMax], by norm_num, by norm_num⟩
  · rw [jsDiv_num_num _ ha, jsMin_num_num, jsMax_num_num]
    refine ⟨_, rfl, le_max_left _ _, ?_⟩
    exact max_le (by norm_num) (min_le_left _ _)

/-- C3 witness: on a calm 12-candle window (ATR 2, slope 0) the momentum is
a number in `[-1, 1]`. -/
theorem momentum_bounds_witness :
    ∃ m : ℝ, calculateMomentum (calmCandles 12) 10 = num m ∧
      -1 ≤ m ∧ m ≤ 1 :=
  momentum_bounds (calmCandles 12) 10 2
    (atr_of_calm_window
      (fun c hc => ⟨(mem_calmCandles (lastN_subset _ _ hc)).1,
        (mem_calmCandles (lastN_subset _ _ hc)).2.1,
        (mem_calmCandles (lastN_subset _ _ hc)).2.2.1⟩)
      (by rw [lastN_length, calmCandles_length]; norm_num))
    (by rintro ⟨h2, -⟩; norm_num at h2)

theorem regimeMultiplier_pos (t : String) : 0 < regimeMultiplier t := by
  unfold regimeMultiplier
  split_ifs <;> norm_num

theorem widthMultiplierOf_pos (t : String) : 0 < widthMultiplierOf t := by
  unfold widthMultiplierOf
  split_ifs <;> norm_num

/-- C7 counterexample: on a window with zero realized volatility (all
closes equal), the projected volatility is `0` for every horizon — the
horizons 1 and 2 give the same value, so strictly increasing the horizon
does not strictly increase `projectedVol`. -/
theorem horizon_monotonicity_refuted :
    projectVolatility (calculateRealizedVolatility (flatCandles 26) 24) 1 24
        (detectRegime (flatCandles 26)) =
      projectVolatility (calculateRealizedVolatility (flatCandles 26) 24) 2 24
        (detectRegime (flatCandles 26)) ∧
    (1 : ℝ) < 2 := by
  have hrv : calculateRealizedVolatility (flatCandles 26) 24 = num 0 :=
    realizedVol_of_const_closes (by norm_num)
      (fun c hc => (mem_flatCandles hc).2.2.1)
      (by rw [flatCandles_length]; norm_num)
  have key : ∀ h : ℝ, 0 ≤ h →
      projectVolatility (num 0) h 24 (detectRegime (flatCandles 26)) = num 0 := by
    intro h hh
    simp only [projectVolatility]
    rw [jsDiv_num_num _ (by norm_num : (24 : ℝ) ≠ 0),
      jsSqrt_num (by positivity), jsMul_num_num, zero_mul,
      jsMul_num_num, zero_mul]
  constructor
  · rw [hrv, key 1 (by norm_num), key 2 (by norm_num)]
  · norm_num

/-- C7 (amended): with the window's realized volatility a positive number
and a positive current price, strictly increasing the horizon strictly
increases the projected volatility, and therefore the adjusted width. -/
theorem horizon_monotonicity (candles : List Candle) (p v h1 h2 : ℝ)
    (hv : calculateRealizedVolatility candles 24 = num v) (hvpos : 0 < v)
    (hp : 0 < p) (h1nn : 0 ≤ h1) (h12 : h1 < h2) :
    (∃ p1 p2 : ℝ,
      projectVolatility (calculateRealizedVolatility candles 24) h1 24
        (detectRegime candles) = num p1 ∧
      projectVolatility (calculateRealizedVolatility candles 24) h2 24
        (detectRegime candles) = num p2 ∧ p1 < p2) ∧
    (∃ w1 w2 : ℝ, adjustedWidthOf candles p h1 = num w1 ∧
      adjustedWidthOf candles p h2 = num w2 ∧ w1 < w2) := by
  have hmult := regimeMultiplier_pos (detectRegime candles).type
  have hwm := widthMultiplierOf_pos (detectRegime candles).type
  have hsqrt : Real.sqrt (h1 / 24) < Real.sqrt (h2 / 24) :=
    Real.sqrt_lt_sqrt (by linarith) (by linarith)
  have hs1 : 0 ≤ Real.sqrt (h1 / 24) := Real.sqrt_nonneg _
  have hpv : ∀ h : ℝ, 0 ≤ h →
      projectVolatility (calculateRealizedVolatility candles 24) h 24
        (detectRegime candles) =
      num (v * Real.sqrt (h / 24) * regimeMultiplier (detectRegime candles).type) := by
    intro h hh
    simp only [projectVolatility, hv]
    rw [jsDiv_num_num _ (by norm_num : (24 : ℝ) ≠ 0),
      jsSqrt_num (by positivity), jsMul_num_num, jsMul_num_num]
  have hlt : v * Real.sqrt (h1 / 24) * regimeMultiplier (detectRegime candles).type <
      v * Real.sqrt (h2 / 24) * regimeMultiplier (detectRegime candles).type :=
    mul_lt_mul_of_pos_right (mul_lt_mul_of_pos_left hsqrt hvpos) hmult
  have hw1 : adjustedWidthOf candles p h1 =
      num (p * (v * Real.sqrt (h1 / 24) *
        regimeMultiplier (detectRegime candles).type) * 1.65 *
        widthMultiplierOf (detectRegime candles).type) := by
    simp only [adjustedWidthOf, hpv h1 h1nn, jsMul_num_num]
  have hw2 : adjustedWidthOf candles p h2 =
      num (p * (v * Real.sqrt (h2 / 24) *
        regimeMultiplier (detectRegime candles).type) * 1.65 *
        widthMultiplierOf (detectRegime candles).type) := by
    simp only [adjustedWidthOf, hpv h2 (by linarith : (0:ℝ) ≤ h2), jsMul_num_num]
  refine ⟨⟨_, _, hpv h1 h1nn, hpv h2 (by linarith), hlt⟩, ⟨_, _, hw1, hw2, ?_⟩⟩
  exact mul_lt_mul_of_pos_right
    (mul_lt_mul_of_pos_right (mul_lt_mul_of_pos_left hlt hp)
      (by norm_num : (0 : ℝ) < 1.65)) hwm

/-- The window 100 → 200 → 200 used to witness a positive realized
volatility: its two log returns are `log 2` and `0`. -/
def bumpCandles : List Candle :=
  [{ open_ := 100, high := 100, low := 100, close := 100, volume := 1000, timestamp := 0 },
   { open_ := 200, high := 200, low := 200, close := 200, volume := 1000, timestamp := 1 },
   { open_ := 200, high := 200, low := 200, close := 200, volume := 1000, timestamp := 2 }]

/-- Exact realized volatility of `bumpCandles`, for any lookback covering
the whole window. -/
theorem bump_rv (lb : ℕ) (hlb : 3 ≤ lb) : calculateRealizedVolatility bumpCandles lb =
    num (Real.log 2 / 2 * Real.sqrt (365 * 24)) := by
  have hL : (0 : ℝ) ≤ Real.log 2 := Real.log_nonneg (by norm_num)
  have h24 : lastN lb bumpCandles = bumpCandles := by
    simp only [lastN]
    rw [show bumpCandles.length - lb = 0 by simp [bumpCandles]; omega,
      List.drop_zero]
  have hret : ((bumpCandles.map Candle.close).zip
      (bumpCandles.map Candle.close).tail).map
      (fun p => jsLog (jsDiv (num p.2) (num p.1))) =
      [num (Real.log 2), num 0] := by
    show [jsLog (jsDiv (num 200) (num 100)), jsLog (jsDiv (num 200) (num 200))] = _
    rw [jsDiv_num_num _ (by norm_num : (100 : ℝ) ≠ 0),
      jsDiv_num_num _ (by norm_num : (200 : ℝ) ≠ 0),
      show (200 / 100 : ℝ) = 2 by norm_num,
      show (200 / 200 : ℝ) = 1 by norm_num,
      jsLog_num_pos (by norm_num : (0 : ℝ) < 2), jsLog_num_pos one_pos,
      Real.log_one]
  simp only [calculateRealizedVolatility]
  rw [h24, hret]
  rw [show ((([num (Real.log 2), num 0] : List JsNum).length : ℕ) : ℝ) = (2 : ℝ)
    by norm_num]
  have hsum : jsSumL [num (Real.log 2), num 0] = num (Real.log 2) := by
    simp only [jsSumL, List.foldl_cons, List.foldl_nil, jsAdd_num_num]
    norm_num
  rw [hsum, jsDiv_num_num _ (by norm_num : (2 : ℝ) ≠ 0)]
  have hvar : ([num (Real.log 2), num 0] : List JsNum).map
      (fun r => jsMul (jsSub r (num (Real.log 2 / 2)))
        (jsSub r (num (Real.log 2 / 2)))) =
      [num (Real.log 2 / 2 * (Real.log 2 / 2)),
        num (Real.log 2 / 2 * (Real.log 2 / 2))] := by
    simp only [List.map_cons, List.map_nil, jsSub_num_num, jsMul_num_num]
    rw [show Real.log 2 - Real.log 2 / 2 = Real.log 2 / 2 by ring,
      show (0 : ℝ) - Real.log 2 / 2 = -(Real.log 2 / 2) by ring, neg_mul_neg]
  rw [hvar]
  have hsum2 : jsSumL [num (Real.log 2 / 2 * (Real.log 2 / 2)),
      num (Real.log 2 / 2 * (Real.log 2 / 2))] =
      num (Real.log 2 / 2 * (Real.log 2 / 2) * 2) := by
    simp only [jsSumL, List.foldl_cons, List.foldl_nil, jsAdd_num_num]
    norm_num
    ring
  rw [hsum2, jsDiv_num_num _ (by norm_num : (2 : ℝ) ≠ 0),
    show Real.log 2 / 2 * (Real.log 2 / 2) * 2 / 2 = (Real.log 2 / 2) ^ 2 by ring,
    jsSqrt_num (by positivity), Real.sqrt_sq (by positivity),
    jsSqrt_num (by norm_num : (0 : ℝ) ≤ 365 * 24), jsMul_num_num]

theorem drop_replicate {α : Type} (n m : ℕ) (a : α) :
    (List.replicate m a).drop n = List.replicate (m - n) a := by
  apply List.eq_replicate_iff.mpr
  constructor
  · simp
  · intro b hb
    exact List.eq_of_mem_replicate (List.drop_subset _ _ hb)

theorem getD_replicate_100 {i n : ℕ} (h : i < n) :
    (List.replicate n (100 : ℝ)).getD i 0 = 100 := by
  rw [List.getD_eq_getElem _ _ (by rw [List.length_replicate]; exact h),
    List.getElem_replicate]

@[simp] theorem flat_closes (n : ℕ) :
    (flatCandles n).map Candle.close = List.replicate n (100 : ℝ) := by
  rw [flatCandles, List.map_map]
  rw [show (Candle.close ∘ fun (i : ℕ) =>
    ({ open_ := 100, high := 100, low := 100, close := 100, volume := 1000
       timestamp := (i : ℝ) } : Candle)) = fun _ => (100 : ℝ) from rfl]
  rw [List.map_const', List.length_range]

@[simp] theorem flat_highs (n : ℕ) :
    (flatCandles n).map Candle.high = List.replicate n (100 : ℝ) := by
  rw [flatCandles, List.map_map]
  rw [show (Candle.high ∘ fun (i : ℕ) =>
    ({ open_ := 100, high := 100, low := 100, close := 100, volume := 1000
       timestamp := (i : ℝ) } : Candle)) = fun _ => (100 : ℝ) from rfl]
  rw [List.map_const', List.length_range]

@[simp] theorem flat_lows (n : ℕ) :
    (flatCandles n).map Candle.low = List.replicate n (100 : ℝ) := by
  rw [flatCandles, List.map_map]
  rw [show (Candle.low ∘ fun (i : ℕ) =>
    ({ open_ := 100, high := 100, low := 100, close := 100, volume := 1000
       timestamp := (i : ℝ) } : Candle)) = fun _ => (100 : ℝ) from rfl]
  rw [List.map_const', List.length_range]

/-- The simplified ADX of a fully flat 26-candle window is NaN: every
directional move and true range is zero, so `+DI = 0/0`. -/
theorem adx_flat26 :
    calculateADX (List.replicate 26 (100 : ℝ)) (List.replicate 26 (100 : ℝ))
      (List.replicate 26 (100 : ℝ)) 14 = JsNum.nan := by
  simp only [calculateADX, List.length_replicate]
  rw [show min (14 + 1) 26 = 15 by norm_num]
  have hplus : ∀ x ∈ (List.range (15 - 1)).map (fun i =>
      let highDiff := (List.replicate 26 (100 : ℝ)).getD (i + 1) 0 -
        (List.replicate 26 (100 : ℝ)).getD i 0
      let lowDiff := (List.replicate 26 (100 : ℝ)).getD i 0 -
        (List.replicate 26 (100 : ℝ)).getD (i + 1) 0
      if 0 < highDiff ∧ lowDiff < highDiff then highDiff else 0), x = (0 : ℝ) := by
    intro x hx
    obtain ⟨i, hi, rfl⟩ := List.mem_map.mp hx
    have hi14 := List.mem_range.mp hi
    rw [getD_replicate_100 (by omega), getD_replicate_100 (by omega)]
    norm_num
  have hminus : ∀ x ∈ (List.range (15 - 1)).map (fun i =>
      let highDiff := (List.replicate 26 (100 : ℝ)).getD (i + 1) 0 -
        (List.replicate 26 (100 : ℝ)).getD i 0
      let lowDiff := (List.replicate 26 (100 : ℝ)).getD i 0 -
        (List.replicate 26 (100 : ℝ)).getD (i + 1) 0
      if 0 < lowDiff ∧ highDiff < lowDiff then lowDiff else 0), x = (0 : ℝ) := by
    intro x hx
    obtain ⟨i, hi, rfl⟩ := List.mem_map.mp hx
    have hi14 := List.mem_range.mp hi
    rw [getD_replicate_100 (by omega), getD_replicate_100 (by omega)]
    norm_num
  have htr : ∀ x ∈ (List.range (15 - 1)).map (fun i =>
      max (max ((List.replicate 26 (100 : ℝ)).getD (i + 1) 0 -
        (List.replicate 26 (100 : ℝ)).getD (i + 1) 0)
        |(List.replicate 26 (100 : ℝ)).getD (i + 1) 0 -
          (List.replicate 26 (100 : ℝ)).getD i 0|)
        |(List.replicate 26 (100 : ℝ)).getD (i + 1) 0 -
          (List.replicate 26 (100 : ℝ)).getD i 0|), x = (0 : ℝ) := by
    intro x hx
    obtain ⟨i, hi, rfl⟩ := List.mem_map.mp hx
    have hi14 := List.mem_range.mp hi
    rw [getD_replicate_100 (by omega), getD_replicate_100 (by omega)]
    norm_num
  rw [List.sum_eq_zero hplus, List.sum_eq_zero hminus, List.sum_eq_zero htr,
    jsDiv_zero_zero, jsMul_nan_left, jsSub_nan_left, jsAbs, jsAdd_nan_left,
    jsDiv_nan_left, jsMul_nan_left]

/-- The Bollinger width of a flat 26-close series is zero. -/
theorem bbWidth_flat26 : calculateBBWidth (List.replicate 26 (100 : ℝ)) 20 = 0 := by
  simp only [calculateBBWidth, List.length_replicate]
  rw [if_neg (by norm_num)]
  have hlast : lastN 20 (List.replicate 26 (100 : ℝ)) = List.replicate 20 100 := by
    simp only [lastN, List.length_replicate]
    rw [drop_replicate]
  rw [hlast, List.sum_replicate]
  rw [show ((20 : ℕ) • (100 : ℝ)) / ((20 : ℕ) : ℝ) = 100 by
    rw [nsmul_eq_mul]; norm_num]
  rw [List.map_replicate, List.sum_replicate]
  rw [show (100 : ℝ) - 100 = 0 by norm_num]
  rw [show ((0 : ℝ) ^ 2) = 0 by norm_num]
  simp

theorem getLastI_replicate26 : (List.replicate 26 (100 : ℝ)).getLastI = 100 :=
  getLastI_all_eq (by simp) (fun x hx => List.eq_of_mem_replicate hx)

theorem roundTo_one : roundTo 2 (1 : ℝ) = 1 := by
  exact_mod_cast roundTo_int 2 1

theorem roundTo_half : roundTo 2 (0.5 : ℝ) = 0.5 := by
  unfold roundTo
  rw [show ((0.5 : ℝ) * (10 : ℝ) ^ 2) = ((50 : ℤ) : ℝ) by norm_num, round_intCast]
  norm_num

/-- Full evaluation of `detectRegime` on the flat 26-candle window: the ADX
stage leaves the default `range`/`0.5`/`neutral`, then the BB-width
override fires the compression branch and rewrites both the type and the
strength (to `min(2.8/0, 1.5) - 0.5 = 1`). -/
theorem detectRegime_flat26 :
    detectRegime (flatCandles 26) =
      { type := "compression", strength := num 1, direction := "neutral"
        adx := JsNum.nan, bbWidth := roundTo 2 0 } := by
  simp only [detectRegime, flat_closes, flat_highs, flat_lows, adx_flat26,
    bbWidth_flat26, getLastI_replicate26, jsLt_nan_left, jsLt_nan_right,
    Bool.false_eq_true, if_false]
  rw [if_neg (by norm_num : ¬ (0 : ℝ) > 100 * 0.04 * 1.3),
    if_pos (by norm_num : (0 : ℝ) < 100 * 0.04 * 0.7)]
  rw [jsDiv_num_zero_pos (by norm_num : (0 : ℝ) < 100 * 0.04 * 0.7),
    jsMin_posInf_num, jsSub_num_num]
  rw [show (1.5 : ℝ) - 0.5 = 1 by norm_num]
  simp only [toFixed2J, toFixed1J, roundTo_one]

/-- C5 counterexample: on the flat 26-candle window the ADX stage computes
strength 0.5, but the compression override rewrites the final strength to 1
— the Bollinger-width override does not leave the ADX-stage strength
unchanged. -/
theorem bb_override_strength_refuted :
    (detectRegime (flatCandles 26)).strength = num 1 ∧
    toFixed2J (adxClassify (flatCandles 26)).strength = num 0.5 ∧
    (1 : ℝ) ≠ 0.5 := by
  refine ⟨?_, ?_, by norm_num⟩
  · rw [detectRegime_flat26]
  · simp only [adxClassify, flat_closes, flat_highs, flat_lows, adx_flat26,
      jsLt_nan_left, jsLt_nan_right, Bool.false_eq_true, if_false]
    simp only [toFixed2J, roundTo_half]

/-- C5 (amended): the Bollinger-width override is applied unconditionally
after the ADX classification and never touches `direction`; it replaces
`type` according to the expansion/compression thresholds, but when a branch
fires it also recomputes `strength` from the BB-width ratio — `strength` is
preserved only when neither branch fires. -/
theorem bb_override_effect (c : List Candle) :
    (detectRegime c).direction = (adxClassify c).direction ∧
    (calculateBBWidth (c.map Candle.close) 20 >
        (c.map Candle.close).getLastI * 0.04 * 1.3 →
      (detectRegime c).type = "expansion") ∧
    (¬ (calculateBBWidth (c.map Candle.close) 20 >
        (c.map Candle.close).getLastI * 0.04 * 1.3) →
      calculateBBWidth (c.map Candle.close) 20 <
        (c.map Candle.close).getLastI * 0.04 * 0.7 →
      (detectRegime c).type = "compression") ∧
    (¬ (calculateBBWidth (c.map Candle.close) 20 >
        (c.map Candle.close).getLastI * 0.04 * 1.3) →
      ¬ (calculateBBWidth (c.map Candle.close) 20 <
        (c.map Candle.close).getLastI * 0.04 * 0.7) →
      (detectRegime c).type = (adxClassify c).type ∧
      (detectRegime c).strength = toFixed2J (adxClassify c).strength) := by
  refine ⟨?_, fun h1 => ?_, fun h1 h2 => ?_, fun h1 h2 => ⟨?_, ?_⟩⟩
  · simp only [detectRegime, adxClassify]
  · simp only [detectRegime]
    rw [if_pos h1]
  · simp only [detectRegime]
    rw [if_neg h1, if_pos h2]
  · simp only [detectRegime, adxClassify]
    rw [if_neg h1, if_neg h2]
  · simp only [detectRegime, adxClassify]
    rw [if_neg h1, if_neg h2]

/-- C5 amended witness: on the flat 26-candle window the direction is
preserved by the override while the type becomes `compression` (the
discharged threshold being `0 < 2.8`). -/
theorem bb_override_effect_witness :
    (detectRegime (flatCandles 26)).direction =
      (adxClassify (flatCandles 26)).direction ∧
    (detectRegime (flatCandles 26)).type = "compression" :=
  ⟨(bb_override_effect (flatCandles 26)).1,
    (bb_override_effect (flatCandles 26)).2.2.1
      (by
        rw [flat_closes, bbWidth_flat26, getLastI_replicate26]
        norm_num)
      (by
        rw [flat_closes, bbWidth_flat26, getLastI_replicate26]
        norm_num)⟩

theorem jsSqrt_eq_num {z : JsNum} {s : ℝ} (h : jsSqrt z = num s) : 0 ≤ s := by
  cases z with
  | num a =>
    simp only [jsSqrt] at h
    split_ifs at h with ha
    have := (num_injEq _ _).mp h
    rw [← this]
    exact Real.sqrt_nonneg a
  | posInf => exact JsNum.noConfusion h
  | negInf => exact JsNum.noConfusion h
  | nan => exact JsNum.noConfusion h

/-- A product of two square roots that is a number is non-negative. -/
theorem jsMul_sqrt_nonneg {z w : JsNum} {o : ℝ}
    (h : jsMul (jsSqrt z) (jsSqrt w) = num o) : 0 ≤ o := by
  cases hz : jsSqrt z with
  | num s =>
    cases hw : jsSqrt w with
    | num t =>
      rw [hz, hw, jsMul_num_num] at h
      have := (num_injEq _ _).mp h
      rw [← this]
      exact mul_nonneg (jsSqrt_eq_num hz) (jsSqrt_eq_num hw)
    | posInf =>
      rw [hz, hw] at h
      simp only [jsMul] at h
      split_ifs at h
    | negInf =>
      rw [hz, hw] at h
      simp only [jsMul] at h
      split_ifs at h
    | nan =>
      rw [hz, hw, jsMul_nan_right] at h
      exact JsNum.noConfusion h
  | posInf =>
    cases hw : jsSqrt w with
    | num t =>
      rw [hz, hw] at h
      simp only [jsMul] at h
      split_ifs at h
    | posInf => rw [hz, hw] at h; simp only [jsMul] at h; exact JsNum.noConfusion h
    | negInf => rw [hz, hw] at h; simp only [jsMul] at h; exact JsNum.noConfusion h
    | nan => rw [hz, hw, jsMul_nan_right] at h; exact JsNum.noConfusion h
  | negInf =>
    cases hw : jsSqrt w with
    | num t =>
      rw [hz, hw] at h
      simp only [jsMul] at h
      split_ifs at h
    | posInf => rw [hz, hw] at h; simp only [jsMul] at h; exact JsNum.noConfusion h
    | negInf => rw [hz, hw] at h; simp only [jsMul] at h; exact JsNum.noConfusion h
    | nan => rw [hz, hw, jsMul_nan_right] at h; exact JsNum.noConfusion h
  | nan =>
    rw [hz, jsMul_nan_left] at h
    exact JsNum.noConfusion h

/-- A realized volatility that is a number is non-negative (it is a product
of two square roots). -/
theorem realizedVol_num_nonneg {l : List Candle} {lb : ℕ} {o : ℝ}
    (h : calculateRealizedVolatility l lb = num o) : 0 ≤ o := by
  simp only [calculateRealizedVolatility] at h
  exact jsMul_sqrt_nonneg h

/-- The `Math.max(0.4, Math.min(0.95, x))` clamp keeps any finite value
inside `[0.4, 0.95]`. -/
theorem clamp_num (x : ℝ) :
    ∃ cv : ℝ, jsMax (num 0.4) (jsMin (num 0.95) (num x)) = num cv ∧
      0.4 ≤ cv ∧ cv ≤ 0.95 :=
  ⟨max 0.4 (min 0.95 x), by simp, le_max_left _ _,
    max_le (by norm_num) (min_le_left _ _)⟩

/-- C7 witness: on the bump window (positive realized volatility) with
price 100, horizons 1 < 2 give strictly increasing projected volatility
and adjusted width. -/
theorem horizon_monotonicity_witness :
    (∃ p1 p2 : ℝ,
      projectVolatility (calculateRealizedVolatility bumpCandles 24) 1 24
        (detectRegime bumpCandles) = num p1 ∧
      projectVolatility (calculateRealizedVolatility bumpCandles 24) 2 24
        (detectRegime bumpCandles) = num p2 ∧ p1 < p2) ∧
    (∃ w1 w2 : ℝ, adjustedWidthOf bumpCandles 100 1 = num w1 ∧
      adjustedWidthOf bumpCandles 100 2 = num w2 ∧ w1 < w2) :=
  horizon_monotonicity bumpCandles 100 (Real.log 2 / 2 * Real.sqrt (365 * 24))
    1 2 (bump_rv 24 (by norm_num))
    (by
      have h2 : (0 : ℝ) < Real.log 2 := Real.log_pos (by norm_num)
      positivity)
    (by norm_num) (by norm_num) (by norm_num)

/-- Projecting a zero realized volatility gives zero for any horizon and
regime. -/
theorem projectVolatility_zero (h : ℝ) (hh : 0 ≤ h) (r : Regime) :
    projectVolatility (num 0) h 24 r = num 0 := by
  simp only [projectVolatility]
  rw [jsDiv_num_num _ (by norm_num : (24 : ℝ) ≠ 0), jsSqrt_num (by positivity),
    jsMul_num_num, zero_mul, jsMul_num_num, zero_mul]

/-- With a zero adjusted width the support anchor is a no-op: the filter
window `(price - 0, price)` is empty. -/
theorem anchorToSupport_zero_tol (st : MarketStructure) (x : ℝ) :
    anchorToSupport (num x) st (num 0) = num x := by
  simp only [anchorToSupport, jsMul_num_num, zero_mul, jsSub_num_num, sub_zero]
  rw [List.filter_eq_nil_iff.mpr (by
    intro s hs
    rw [jsLt_both_false s x]
    exact Bool.false_ne_true)]
  rfl

/-- With a zero adjusted width the resistance anchor is a no-op. -/
theorem anchorToResistance_zero_tol (st : MarketStructure) (x : ℝ) :
    anchorToResistance (num x) st (num 0) = num x := by
  simp only [anchorToResistance, jsMul_num_num, zero_mul, jsAdd_num_num,
    add_zero]
  rw [List.filter_eq_nil_iff.mpr (by
    intro s hs
    have := jsLt_both_false s x
    rw [Bool.and_comm] at this
    rw [this]
    exact Bool.false_ne_true)]
  rfl

/-- A placeholder market snapshot (the confidence computation never reads
it; the parameter exists only because the source function takes it). -/
def mdTest : MarketData :=
  { price := 100, change24h := 0, volume24h := 0, marketCap := 0
    source := "test" }

/-- C4 counterexample: on the fully flat 26-candle window both half-window
realized volatilities are 0, the stability term is the NaN `0/0`, NaN
propagates through every addition and through `Math.min`/`Math.max`, and
the confidence comes out NaN — outside `[0.40, 0.95]`. -/
theorem confidence_bounds_refuted :
    calculateConfidence (flatCandles 26) (detectRegime (flatCandles 26))
      (findMarketStructure (flatCandles 26)) 100 mdTest = JsNum.nan ∧
    ¬ ∃ cv : ℝ, calculateConfidence (flatCandles 26)
      (detectRegime (flatCandles 26)) (findMarketStructure (flatCandles 26))
      100 mdTest = num cv ∧ 0.4 ≤ cv ∧ cv ≤ 0.95 := by
  have hrec : calculateRealizedVolatility (lastN 12 (flatCandles 26)) 12 =
      num 0 :=
    realizedVol_of_const_closes (by norm_num)
      (fun c hc => (mem_flatCandles (lastN_subset _ _ hc)).2.2.1)
      (by rw [lastN_length, flatCandles_length]; norm_num)
  have hold : calculateRealizedVolatility (sliceOlder (flatCandles 26)) 12 =
      num 0 :=
    realizedVol_of_const_closes (by norm_num)
      (fun c hc => (mem_flatCandles (sliceOlder_subset _ hc)).2.2.1)
      (by
        simp only [sliceOlder, lastN_length, List.length_take,
          flatCandles_length]
        norm_num)
  have hnan : calculateConfidence (flatCandles 26) (detectRegime (flatCandles 26))
      (findMarketStructure (flatCandles 26)) 100 mdTest = JsNum.nan := by
    simp only [calculateConfidence, hrec, hold]
    rw [show jsSub (num (0 : ℝ)) (num 0) = num 0 by
      rw [jsSub_num_num, sub_zero]]
    rw [jsAbs_num, abs_zero, jsDiv_zero_zero, jsSub_nan_right]
    simp only [jsSub_nan_left, jsMul_nan_left, jsAdd_nan_right, jsAdd_nan_left,
      ite_self, jsMin_nan_right, jsMax_nan_right]
  refine ⟨hnan, ?_⟩
  rintro ⟨cv, hcv, -, -⟩
  rw [hnan] at hcv
  exact (nan_ne_num cv) hcv

/-- C4 (amended): the confidence is a number in `[0.40, 0.95]` whenever the
two half-window realized volatilities are numbers that are not both zero
(excluding the NaN `0/0` stability term; an infinite stability term is
still clamped to 0.40) and the regime strength is a number. -/
theorem confidence_bounds (candles : List Candle) (regime : Regime)
    (struct : MarketStructure) (p : ℝ) (md : MarketData) (r o s : ℝ)
    (hr : calculateRealizedVolatility (lastN 12 candles) 12 = num r)
    (ho : calculateRealizedVolatility (sliceOlder candles) 12 = num o)
    (hno : ¬ (r = 0 ∧ o = 0))
    (hs : regime.strength = num s) :
    ∃ cv : ℝ, calculateConfidence candles regime struct p md = num cv ∧
      0.4 ≤ cv ∧ cv ≤ 0.95 := by
  have honn : 0 ≤ o := realizedVol_num_nonneg ho
  simp only [calculateConfidence, hr, ho, hs]
  by_cases ho0 : o = 0
  · have hr0 : r ≠ 0 := fun h => hno ⟨h, ho0⟩
    subst ho0
    rw [jsSub_num_num, sub_zero, jsAbs_num,
      jsDiv_num_zero_pos (abs_pos.mpr hr0), jsSub_num_posInf,
      jsSub_negInf_num, jsMul_negInf_num_pos (by norm_num : (0:ℝ) < 0.3),
      jsAdd_num_negInf, jsSub_num_num, jsMul_num_num, jsAdd_negInf_num]
    split_ifs <;>
      refine ⟨0.4, ?_, by norm_num, by norm_num⟩ <;>
      simp [jsAdd_negInf_num, jsSub_negInf_num, jsMin_num_negInf,
        jsMax_num_negInf]
  · rw [jsSub_num_num, jsAbs_num, jsDiv_num_num _ ho0, jsSub_num_num,
      jsSub_num_num, jsMul_num_num, jsAdd_num_num, jsSub_num_num,
      jsMul_num_num, jsAdd_num_num]
    split_ifs <;> exact clamp_num _

/-- The 15-candle window whose older quarter is the bump 100→200→200 and
whose last 12 candles are flat at 200: the recent-half realized volatility
is 0 and the older-half one is positive. -/
def mixedCandles : List Candle :=
  bumpCandles ++ (List.range 12).map (fun (i : ℕ) =>
    { open_ := 200, high := 200, low := 200, close := 200, volume := 1000
      timestamp := (i : ℝ) + 3 })

/-- C4 witness: on the mixed window (recent vol 0, older vol positive) the
confidence is a number within `[0.40, 0.95]`. -/
theorem confidence_bounds_witness :
    ∃ cv : ℝ, calculateConfidence mixedCandles
      { type := "range", strength := num 0.5, direction := "neutral"
        adx := num 10, bbWidth := 0 }
      (findMarketStructure mixedCandles) 100 mdTest = num cv ∧
      0.4 ≤ cv ∧ cv ≤ 0.95 := by
  have hlen : mixedCandles.length = 15 := by
    simp [mixedCandles, bumpCandles]
  have hlast : lastN 12 mixedCandles = (List.range 12).map (fun (i : ℕ) =>
      ({ open_ := 200, high := 200, low := 200, close := 200, volume := 1000
         timestamp := (i : ℝ) + 3 } : Candle)) := by
    rw [lastN, hlen]
    rw [show (15 - 12 : ℕ) = bumpCandles.length by simp [bumpCandles]]
    exact List.drop_left _ _
  have hsl : sliceOlder mixedCandles = bumpCandles := by
    rw [sliceOlder, lastN_length, hlen]
    rw [show lastN 24 mixedCandles = mixedCandles by
      rw [lastN, hlen]; norm_num]
    rw [show (min 24 15 - 12 : ℕ) = bumpCandles.length by simp [bumpCandles]]
    exact List.take_left _ _
  have hr : calculateRealizedVolatility (lastN 12 mixedCandles) 12 = num 0 := by
    apply realizedVol_of_const_closes (k := 200) (by norm_num)
    · intro c hc
      rw [hlast] at hc
      obtain ⟨i, _, rfl⟩ := List.mem_map.mp hc
      rfl
    · rw [hlast]
      simp
  have ho : calculateRealizedVolatility (sliceOlder mixedCandles) 12 =
      num (Real.log 2 / 2 * Real.sqrt (365 * 24)) := by
    rw [hsl]
    exact bump_rv 12 (by norm_num)
  exact confidence_bounds mixedCandles _ _ 100 mdTest 0
    (Real.log 2 / 2 * Real.sqrt (365 * 24)) 0.5 hr ho
    (by
      rintro ⟨-, hv0⟩
      have h2 : (0 : ℝ) < Real.log 2 := Real.log_pos (by norm_num)
      have h8 : (0 : ℝ) < Real.sqrt (365 * 24) :=
        Real.sqrt_pos.mpr (by norm_num)
      have hpos : (0 : ℝ) < Real.log 2 / 2 * Real.sqrt (365 * 24) :=
        mul_pos (by linarith) h8
      linarith)
    rfl

/-- C2 counterexample: on the fully flat window (every OHLC field 100,
`price = 100`, horizon 1) the momentum is the NaN `0/0`, the NaN skew
poisons the center price, and `range.center` is NaN — not 100 as the
scenario asserts. -/
theorem flat_scenario_refuted :
    (calculatePriceRange (flatCandles 26) 100 1 mdTest).range.center =
      JsNum.nan ∧
    (JsNum.nan ≠ num 100) := by
  constructor
  · simp only [calculatePriceRange]
    rw [momentum_flat_nan (by norm_num : 2 ≤ 26)]
    simp only [jsMul_nan_left, jsAdd_nan_right, jsMul_nan_right, toFixed2J]
  · exact nan_ne_num 100

/-- C2 (amended): on a candle window whose closes are all 100 but whose
last-10-candle ATR is a positive number (so the momentum normalization is
not `0/0`), with current price 100 and horizon 1, the realized volatility,
projected volatility and adjusted width are exactly 0 and the output range
collapses to `low = high = center = 100`. -/
theorem flat_scenario (candles : List Candle) (md : MarketData) (a : ℝ)
    (hn : 2 ≤ candles.length)
    (hc : ∀ c ∈ candles, c.close = 100)
    (hatr : calculateATR (lastN 10 candles) 10 = num a) (ha : 0 < a) :
    calculateRealizedVolatility candles 24 = num 0 ∧
    projectVolatility (calculateRealizedVolatility candles 24) 1 24
      (detectRegime candles) = num 0 ∧
    adjustedWidthOf candles 100 1 = num 0 ∧
    (calculatePriceRange candles 100 1 md).range.low = num 100 ∧
    (calculatePriceRange candles 100 1 md).range.high = num 100 ∧
    (calculatePriceRange candles 100 1 md).range.center = num 100 := by
  have hne : candles ≠ [] := by
    intro h
    rw [h] at hn
    simp at hn
  have hrv : calculateRealizedVolatility candles 24 = num 0 :=
    realizedVol_of_const_closes (by norm_num) hc (by omega)
  have hmom : calculateMomentum candles 10 = num 0 := by
    simp only [calculateMomentum, momentumSlope_const 10 hne hc, hatr]
    rw [jsDiv_num_num _ (ne_of_gt ha), zero_div]
    norm_num
  have hadjw : adjustedWidthOf candles 100 1 = num 0 := by
    simp only [adjustedWidthOf, hrv,
      projectVolatility_zero 1 (by norm_num) (detectRegime candles)]
    rw [jsMul_num_num, jsMul_num_num, jsMul_num_num]
    rw [show (100 : ℝ) * 0 * 1.65 *
      widthMultiplierOf (detectRegime candles).type = 0 by ring]
  have h100 : roundTo 2 (100 : ℝ) = 100 := by
    exact_mod_cast roundTo_int 2 100
  refine ⟨hrv, ?_, hadjw, ?_, ?_, ?_⟩
  · rw [hrv]
    exact projectVolatility_zero 1 (by norm_num) (detectRegime candles)
  · simp only [calculatePriceRange]
    rw [hmom, hadjw, jsMul_num_num, jsAdd_num_num, jsMul_num_num,
      show (100 : ℝ) * (1 + 0 * 0.12) = 100 by norm_num,
      jsDiv_num_num _ (by norm_num : (2 : ℝ) ≠ 0), zero_div,
      jsSub_num_num, sub_zero, anchorToSupport_zero_tol]
    simp only [toFixed2J, h100]
  · simp only [calculatePriceRange]
    rw [hmom, hadjw, jsMul_num_num, jsAdd_num_num, jsMul_num_num,
      show (100 : ℝ) * (1 + 0 * 0.12) = 100 by norm_num,
      jsDiv_num_num _ (by norm_num : (2 : ℝ) ≠ 0), zero_div,
      jsAdd_num_num, add_zero, anchorToResistance_zero_tol]
    simp only [toFixed2J, h100]
  · simp only [calculatePriceRange]
    rw [hmom, jsMul_num_num, jsAdd_num_num, jsMul_num_num,
      show (100 : ℝ) * (1 + 0 * 0.12) = 100 by norm_num]
    simp only [toFixed2J, h100]

/-- C2 witness: the flat-close scenario at the calm 26-candle window
(closes 100, ATR 2 > 0, price 100, horizon 1). -/
theorem flat_scenario_witness :
    calculateRealizedVolatility (calmCandles 26) 24 = num 0 ∧
    projectVolatility (calculateRealizedVolatility (calmCandles 26) 24) 1 24
      (detectRegime (calmCandles 26)) = num 0 ∧
    adjustedWidthOf (calmCandles 26) 100 1 = num 0 ∧
    (calculatePriceRange (calmCandles 26) 100 1 mdTest).range.low = num 100 ∧
    (calculatePriceRange (calmCandles 26) 100 1 mdTest).range.high = num 100 ∧
    (calculatePriceRange (calmCandles 26) 100 1 mdTest).range.center = num 100 :=
  flat_scenario (calmCandles 26) mdTest 2 (by norm_num)
    (fun c hc => (mem_calmCandles hc).2.2.1)
    (atr_of_calm_window
      (fun c hc => ⟨(mem_calmCandles (lastN_subset _ _ hc)).1,
        (mem_calmCandles (lastN_subset _ _ hc)).2.1,
        (mem_calmCandles (lastN_subset _ _ hc)).2.2.1⟩)
      (by rw [lastN_length, calmCandles_length]; norm_num))
    (by norm_num)

end BtcBot
